import Mathlib

/-!
Verification development for the melting-beads pattern generator.

The definitions below are shallow embeddings of the TypeScript sources:
`src/lib/bead-palettes.ts` (`findClosestColor`), the flood-fill variant of
`src/lib/image-processor.ts` (`processImage`), and the editing handlers of
`App.tsx` (`handlePatternEdit`, `handleCanvasDraw`, `generateEditedPattern`,
`applyEdits`, `cancelEdits`).

Numeric modelling conventions:
* Colors are `#RRGGBB` strings exactly as in the source; hex parsing mirrors
  `Number.parseInt(hex.substring(i, i+2), 16)`.
* JavaScript `Math.sqrt`-based distance comparisons are modelled by comparing
  squared distances over `ℤ`.  All squared distances here are integers below
  `2^18`; IEEE-754 `sqrt` is correctly rounded and strictly monotone on this
  range, so `sqrt d1 < sqrt d2 ↔ d1 < d2` holds for the doubles the program
  computes, and the integer comparison is an exact model.
* `Math.round` on a non-negative quotient is round-half-up, modelled by
  `jsRound` below.  The error-diffusion arithmetic manipulates dyadic
  rationals with denominator 16 and small magnitude, which IEEE doubles
  represent exactly, so `ℚ` models it exactly.
* Stores into a `Uint8ClampedArray` clamp to `[0, 255]` and round to the
  nearest integer with ties to even (ECMAScript `ToUint8Clamp`); this is
  `toUint8Clamp16` below, on numerators in sixteenths.
-/

/-- Value of one hex digit, as parsed by `Number.parseInt(·, 16)`. -/
def hexDigitVal (c : Char) : Nat :=
  if '0' ≤ c ∧ c ≤ '9' then c.toNat - '0'.toNat
  else if 'a' ≤ c ∧ c ≤ 'f' then c.toNat - 'a'.toNat + 10
  else if 'A' ≤ c ∧ c ≤ 'F' then c.toNat - 'A'.toNat + 10
  else 0

/-- `Number.parseInt(s.substring(0,2), 16)` on a list of characters. -/
def parseHexByte (cs : List Char) : Nat :=
  match cs with
  | c1 :: c2 :: _ => 16 * hexDigitVal c1 + hexDigitVal c2
  | [c1] => hexDigitVal c1
  | [] => 0

/-- Red channel of a `#RRGGBB` color string (`hex.substring(0,2)`). -/
def hexR (color : String) : Nat := parseHexByte (color.toList.drop 1)

/-- Green channel of a `#RRGGBB` color string (`hex.substring(2,4)`). -/
def hexG (color : String) : Nat := parseHexByte (color.toList.drop 3)

/-- Blue channel of a `#RRGGBB` color string (`hex.substring(4,6)`). -/
def hexB (color : String) : Nat := parseHexByte (color.toList.drop 5)

/-- Squared Euclidean RGB distance between a query color and a palette entry,
exact integer model of the `Math.sqrt(Math.pow ...)` expression in
`findClosestColor`. -/
def dist2 (r g b : Nat) (color : String) : ℤ :=
  ((r : ℤ) - hexR color) ^ 2 + ((g : ℤ) - hexG color) ^ 2 +
    ((b : ℤ) - hexB color) ^ 2

/-- Loop of `findClosestColor`: `minD = none` models
`minDistance = Number.POSITIVE_INFINITY` (every finite distance beats it);
`closest` carries the current `closestColor` (`none` models the
`undefined` that `palette[0]` yields on an empty palette). -/
def findClosestColorAux (r g b : Nat) : List String → Option ℤ → Option String →
    Option String
  | [], _, closest => closest
  | c :: cs, minD, closest =>
    let d := dist2 r g b c
    match minD with
    | none => findClosestColorAux r g b cs (some d) (some c)
    | some m =>
      if d < m then findClosestColorAux r g b cs (some d) (some c)
      else findClosestColorAux r g b cs (some m) closest

/-- `findClosestColor` from `bead-palettes.ts`.  Returns `none` exactly when
the palette is empty (the JavaScript function returns `undefined` there, and
every caller then throws a `TypeError` on `closestColor.substring(1)`). -/
def findClosestColor (r g b : Nat) (palette : List String) : Option String :=
  findClosestColorAux r g b palette none palette.head?

/-- `Math.round` of `num / den` for non-negative operands: round half up. -/
def jsRound (num den : Nat) : Nat := (2 * num + den) / (2 * den)

/-- Dimension computation of `processImage` (the aspect-preserving
down-scaling block): from native `width`/`height` and `maxBeads` compute the
target grid dimensions. -/
def resampleDims (width height maxBeads : Nat) : Nat × Nat :=
  if height < width then
    if maxBeads < width then (maxBeads, jsRound (height * maxBeads) width)
    else (width, height)
  else
    if maxBeads < height then (jsRound (width * maxBeads) height, maxBeads)
    else (width, height)

/-- An RGB triple as read from the canvas pixel buffer. -/
abbrev RGB := Nat × Nat × Nat

/-- The resampled pixel buffer (`ctx.getImageData` after `drawImage`):
dimensions plus an RGB sample per coordinate `(x, y)`. -/
structure Img where
  width : Nat
  height : Nat
  pix : Nat → Nat → RGB

/-- Squared Euclidean distance between two RGB triples. -/
def sqDistRGB (c d : RGB) : ℤ :=
  ((c.1 : ℤ) - d.1) ^ 2 + ((c.2.1 : ℤ) - d.2.1) ^ 2 + ((c.2.2 : ℤ) - d.2.2) ^ 2

/-- The flood fill's membership test
`colorDiff / (255 * sqrt 3) < backgroundThreshold / 100`, stated exactly on
squared integer distances: `100 * dist < t * 255 * sqrt 3` squares to
`10000 * dist² < t² * 195075`. -/
def withinBg (img : Img) (seed : RGB) (t : Nat) (p : Nat × Nat) : Bool :=
  decide (10000 * sqDistRGB (img.pix p.1 p.2) seed < 195075 * ((t : ℤ)) ^ 2)

/-- The four bounds-checked neighbour pushes of the flood-fill loop, in
source order (`x-1`, `x+1`, `y-1`, `y+1`). -/
def bgNeighbors (w h x y : Nat) : List (Nat × Nat) :=
  (if 0 < x then [(x - 1, y)] else []) ++
  (if x < w - 1 then [(x + 1, y)] else []) ++
  (if 0 < y then [(x, y - 1)] else []) ++
  (if y < h - 1 then [(x, y + 1)] else [])

/-- The initial flood-fill queue: every pixel of the top and bottom rows,
then the left/right columns for `1 ≤ y ≤ h - 2`, exactly as the two `for`
loops build it. -/
def borderQueue (w h : Nat) : List (Nat × Nat) :=
  ((List.range w).flatMap fun x => [(x, 0), (x, h - 1)]) ++
  (((List.range (h - 1)).drop 1).flatMap fun y => [(0, y), (w - 1, y)])

/-- The `while (queue.length > 0)` flood-fill loop of `processImage`,
with an explicit fuel parameter for structural recursion (the loop provably
drains its queue within `bgFillFuel` steps — the fuel accounting is part of
`bgFill_complete` below).  State: pending queue, `visited` set, `transparentPixels` set;
coordinates are `(x, y)` pairs standing for the flat indices `y * width + x`
of the source. -/
def bgFill (img : Img) (seed : RGB) (t : Nat) :
    Nat → List (Nat × Nat) → Finset (Nat × Nat) → Finset (Nat × Nat) →
    Finset (Nat × Nat) × Finset (Nat × Nat)
  | 0, _, visited, transparent => (visited, transparent)
  | _ + 1, [], visited, transparent => (visited, transparent)
  | fuel + 1, p :: rest, visited, transparent =>
    if p ∈ visited then
      bgFill img seed t fuel rest visited transparent
    else
      if withinBg img seed t p then
        bgFill img seed t fuel
          (rest ++ bgNeighbors img.width img.height p.1 p.2)
          (insert p visited) (insert p transparent)
      else
        bgFill img seed t fuel rest (insert p visited) transparent

/-- Fuel that always suffices for `bgFill` to drain its queue: each
iteration pops one element, and at most `4 * width * height` pushes can ever
happen (four per newly visited in-bounds pixel). -/
def bgFillFuel (img : Img) : Nat :=
  (borderQueue img.width img.height).length + 4 * (img.width * img.height)

/-- The `transparentPixels` set computed by `processImage`'s background
removal stage, for a given seed background color. -/
def transparentPixels (img : Img) (seed : RGB) (t : Nat) : Finset (Nat × Nat) :=
  (bgFill img seed t (bgFillFuel img) (borderQueue img.width img.height) ∅ ∅).2

/-- Coordinate lies inside the pixel buffer. -/
def inBoundsP (w h : Nat) (p : Nat × Nat) : Prop := p.1 < w ∧ p.2 < h

instance (w h : Nat) (p : Nat × Nat) : Decidable (inBoundsP w h p) := by
  unfold inBoundsP; infer_instance

/-- Coordinate lies on the border of a `w × h` buffer. -/
def onBorder (w h : Nat) (p : Nat × Nat) : Prop :=
  p.1 = 0 ∨ p.1 = w - 1 ∨ p.2 = 0 ∨ p.2 = h - 1

instance (w h : Nat) (p : Nat × Nat) : Decidable (onBorder w h p) := by
  unfold onBorder; infer_instance

/-- 4-connectivity of grid coordinates. -/
def adj4 (p q : Nat × Nat) : Prop :=
  (p.2 = q.2 ∧ (p.1 + 1 = q.1 ∨ q.1 + 1 = p.1)) ∨
  (p.1 = q.1 ∧ (p.2 + 1 = q.2 ∨ q.2 + 1 = p.2))

/-- Reachability from the buffer border through a 4-connected chain of
pixels that are each strictly within the background threshold — the
declarative characterisation of the flood fill claimed by the spec. -/
inductive BgReach (img : Img) (seed : RGB) (t : Nat) : Nat × Nat → Prop where
  | border (p : Nat × Nat) : inBoundsP img.width img.height p →
      onBorder img.width img.height p → withinBg img seed t p = true →
      BgReach img seed t p
  | step (p q : Nat × Nat) : BgReach img seed t p → adj4 p q →
      inBoundsP img.width img.height q → withinBg img seed t q = true →
      BgReach img seed t q

/-- The eight border probe points sampled by STEP 1 of the background
removal (four corners, four edge midpoints), in source order. -/
def samplePoints (w h : Nat) : List (Nat × Nat) :=
  [(0, 0), (w - 1, 0), (0, h - 1), (w - 1, h - 1),
   (w / 2, 0), (w / 2, h - 1), (0, h / 2), (w - 1, h / 2)]

/-- Seed background color: the most frequent color among the sampled probe
pixels; frequency ties keep the first-seen color (JavaScript objects
preserve insertion order and `sort` is stable).  `(0,0,0)` is the source's
initial `bgColorR/G/B` value, used only if there are no samples. -/
def bgSeed (img : Img) : RGB :=
  let colors := (samplePoints img.width img.height).map fun p => img.pix p.1 p.2
  let distinct := colors.foldl (fun acc c => if c ∈ acc then acc else acc ++ [c]) []
  match distinct with
  | [] => (0, 0, 0)
  | c :: cs => cs.foldl (fun best d => if colors.count best < colors.count d then d else best) c

/-- Left-to-right effectful map over a list, aborting at the first error —
the behaviour of a `for` loop whose body can `throw`. -/
def traverseE {α β : Type} (f : α → Except Unit β) : List α → Except Unit (List β)
  | [] => .ok []
  | a :: as =>
    match f a with
    | .error e => .error e
    | .ok b =>
      match traverseE f as with
      | .error e => .error e
      | .ok bs => .ok (b :: bs)

/-- One cell of the non-dithered quantization loop: transparent pixels get
the sentinel; otherwise the nearest palette color.  An empty palette makes
`findClosestColor` return `undefined` and the subsequent
`closestColor.substring(1)` throw, modelled as `Except.error`. -/
def quantizeCell (palette : List String) (isBg : Nat → Nat → Bool)
    (pix : Nat → Nat → RGB) (x y : Nat) : Except Unit String :=
  if isBg x y then .ok "transparent"
  else
    match findClosestColor (pix x y).1 (pix x y).2.1 (pix x y).2.2 palette with
    | none => .error ()
    | some c => .ok c

/-- The non-dithered quantization double loop building `colorGrid` in
row-major order. -/
def quantizeGrid (palette : List String) (isBg : Nat → Nat → Bool)
    (pix : Nat → Nat → RGB) (w h : Nat) : Except Unit (List (List String)) :=
  traverseE (fun y => traverseE (fun x => quantizeCell palette isBg pix x y) (List.range w))
    (List.range h)

/-- The dithering working buffer: the `Uint8ClampedArray` copy of the pixel
data, addressed by 2D coordinates (flat index `4 * (y * width + x) + ch` in
the source). -/
abbrev Buf := Nat × Nat → RGB

/-- Pointwise functional update of a buffer. -/
def updatePix (buf : Buf) (p : Nat × Nat) (v : RGB) : Buf :=
  fun q => if q = p then v else buf q

/-- ECMAScript `ToUint8Clamp` applied to the value `n / 16` (every value the
dithering loop ever stores is an integer plus `err * k / 16`, a dyadic
rational with denominator 16, represented here exactly by its numerator in
sixteenths): clamp to `[0, 255]`, then round to the nearest integer, ties to
even.  This is what a store into a `Uint8ClampedArray` performs. -/
def toUint8Clamp16 (n : ℤ) : Nat :=
  if n ≤ 0 then 0
  else if 255 * 16 ≤ n then 255
  else if n % 16 < 8 then (n / 16).toNat
  else if 8 < n % 16 then (n / 16).toNat + 1
  else if (n / 16).toNat % 2 = 0 then (n / 16).toNat else (n / 16).toNat + 1

/-- One `pixels[...] += (err * k) / 16` store group (the three RGB channels
of one neighbour), with `Uint8ClampedArray` store semantics; `dr`/`dg`/`db`
are the added deltas in sixteenths (i.e. `err * k`). -/
def storeAdd (buf : Buf) (p : Nat × Nat) (dr dg db : ℤ) : Buf :=
  updatePix buf p
    (toUint8Clamp16 (16 * (buf p).1 + dr), toUint8Clamp16 (16 * (buf p).2.1 + dg),
     toUint8Clamp16 (16 * (buf p).2.2 + db))

/-- The body of the Floyd–Steinberg loop for one pixel `(x, y)` of
`processImage`: transparent pixels get the sentinel and leave the working
buffer untouched (`continue`); otherwise the nearest palette color is chosen
from the current working values and the quantization error is distributed by
the four guarded stores, in source order (right; below-left, below,
below-right — the source's flat offsets `idx+4`, `idx+4w-4`, `idx+4w`,
`idx+4w+4`). -/
def ditherPixel (palette : List String) (isBg : Nat → Nat → Bool) (w h : Nat)
    (buf : Buf) (x y : Nat) : Except Unit (Buf × String) :=
  if isBg x y then .ok (buf, "transparent")
  else
    match findClosestColor (buf (x, y)).1 (buf (x, y)).2.1 (buf (x, y)).2.2 palette with
    | none => .error ()
    | some c =>
      let errR : ℤ := ((buf (x, y)).1 : ℤ) - hexR c
      let errG : ℤ := ((buf (x, y)).2.1 : ℤ) - hexG c
      let errB : ℤ := ((buf (x, y)).2.2 : ℤ) - hexB c
      let buf1 := if x + 1 < w then
          storeAdd buf (x + 1, y) (errR * 7) (errG * 7) (errB * 7)
        else buf
      let buf2 :=
        if y + 1 < h then
          let bufA := if 0 < x then
              storeAdd buf1 (x - 1, y + 1) (errR * 3) (errG * 3) (errB * 3)
            else buf1
          let bufB := storeAdd bufA (x, y + 1) (errR * 5) (errG * 5) (errB * 5)
          if x + 1 < w then
            storeAdd bufB (x + 1, y + 1) (errR * 1) (errG * 1) (errB * 1)
          else bufB
        else buf1
      .ok (buf2, c)

/-- Inner (`x`) loop of the dithering pass, threading the working buffer and
collecting the row of `colorGrid` entries. -/
def ditherRowGo (palette : List String) (isBg : Nat → Nat → Bool) (w h : Nat) :
    Buf → Nat → List Nat → Except Unit (Buf × List String)
  | buf, _, [] => .ok (buf, [])
  | buf, y, x :: xs =>
    match ditherPixel palette isBg w h buf x y with
    | .error e => .error e
    | .ok (buf', c) =>
      match ditherRowGo palette isBg w h buf' y xs with
      | .error e => .error e
      | .ok (buf'', row) => .ok (buf'', c :: row)

/-- Outer (`y`) loop of the dithering pass. -/
def ditherGo (palette : List String) (isBg : Nat → Nat → Bool) (w h : Nat) :
    Buf → List Nat → Except Unit (Buf × List (List String))
  | buf, [] => .ok (buf, [])
  | buf, y :: ys =>
    match ditherRowGo palette isBg w h buf y (List.range w) with
    | .error e => .error e
    | .ok (buf', row) =>
      match ditherGo palette isBg w h buf' ys with
      | .error e => .error e
      | .ok (buf'', rows) => .ok (buf'', row :: rows)

/-- The dithered quantization pass: the working buffer is initialised from
the original pixel data (`pixels.set(data)`) and the grid is produced in
row-major order. -/
def ditherGrid (palette : List String) (isBg : Nat → Nat → Bool)
    (pix : Nat → Nat → RGB) (w h : Nat) : Except Unit (List (List String)) :=
  match ditherGo palette isBg w h (fun p => pix p.1 p.2) (List.range h) with
  | .error e => .error e
  | .ok (_, rows) => .ok rows

/-- Clamp a rational channel value to `[0, 255]`. -/
def clamp255 (x : ℚ) : ℚ := max 0 (min 255 x)

/-- Squared distance for rational query channels. -/
def dist2Q (r g b : ℚ) (color : String) : ℚ :=
  (r - hexR color) ^ 2 + (g - hexG color) ^ 2 + (b - hexB color) ^ 2

/-- `findClosestColor`'s loop on rational query channels (used only by the
claimed floating-point dithering variant below). -/
def findClosestColorQAux (r g b : ℚ) : List String → Option ℚ → Option String →
    Option String
  | [], _, closest => closest
  | c :: cs, minD, closest =>
    let d := dist2Q r g b c
    match minD with
    | none => findClosestColorQAux r g b cs (some d) (some c)
    | some m =>
      if d < m then findClosestColorQAux r g b cs (some d) (some c)
      else findClosestColorQAux r g b cs (some m) closest

/-- Nearest palette color for a rational query (claimed floating-point
dithering variant). -/
def findClosestColorQ (r g b : ℚ) (palette : List String) : Option String :=
  findClosestColorQAux r g b palette none palette.head?

/-- Working buffer of the claimed floating-point variant. -/
abbrev QBuf := Nat × Nat → ℚ × ℚ × ℚ

/-- Pointwise functional update of a rational buffer. -/
def updatePixQ (buf : QBuf) (p : Nat × Nat) (v : ℚ × ℚ × ℚ) : QBuf :=
  fun q => if q = p then v else buf q

/-- Plain (unclamped, unrounded) error accumulation into a rational buffer. -/
def addQ (buf : QBuf) (p : Nat × Nat) (dr dg db : ℚ) : QBuf :=
  updatePixQ buf p ((buf p).1 + dr, (buf p).2.1 + dg, (buf p).2.2 + db)

/-- Modelled from the spec: the per-pixel step of the *claimed* dithering
quantizer of §4.4 / C4 — "maintain a floating-point working copy of the RGB
channels"; "channel values are clamped to [0,255] when read back for the
next pixel's nearest-color comparison"; error propagated to the four
in-bounds kernel targets with weights 7/16, 3/16, 5/16, 1/16 and no store
rounding.  It exists to be compared against `ditherPixel` (the source
transcription, whose working buffer is an integer `Uint8ClampedArray`). -/
def ditherPixelFloatClaim (palette : List String) (isBg : Nat → Nat → Bool)
    (w h : Nat) (buf : QBuf) (x y : Nat) : Except Unit (QBuf × String) :=
  if isBg x y then .ok (buf, "transparent")
  else
    let r := clamp255 (buf (x, y)).1
    let g := clamp255 (buf (x, y)).2.1
    let b := clamp255 (buf (x, y)).2.2
    match findClosestColorQ r g b palette with
    | none => .error ()
    | some c =>
      let errR : ℚ := r - hexR c
      let errG : ℚ := g - hexG c
      let errB : ℚ := b - hexB c
      let buf1 := if x + 1 < w then
          addQ buf (x + 1, y) (errR * 7 / 16) (errG * 7 / 16) (errB * 7 / 16)
        else buf
      let buf2 :=
        if y + 1 < h then
          let bufA := if 0 < x then
              addQ buf1 (x - 1, y + 1) (errR * 3 / 16) (errG * 3 / 16) (errB * 3 / 16)
            else buf1
          let bufB := addQ bufA (x, y + 1) (errR * 5 / 16) (errG * 5 / 16) (errB * 5 / 16)
          if x + 1 < w then
            addQ bufB (x + 1, y + 1) (errR * 1 / 16) (errG * 1 / 16) (errB * 1 / 16)
          else bufB
        else buf1
      .ok (buf2, c)

/-- Modelled from the spec: inner loop of the claimed floating-point
dithering variant. -/
def ditherRowGoFloatClaim (palette : List String) (isBg : Nat → Nat → Bool)
    (w h : Nat) : QBuf → Nat → List Nat → Except Unit (QBuf × List String)
  | buf, _, [] => .ok (buf, [])
  | buf, y, x :: xs =>
    match ditherPixelFloatClaim palette isBg w h buf x y with
    | .error e => .error e
    | .ok (buf', c) =>
      match ditherRowGoFloatClaim palette isBg w h buf' y xs with
      | .error e => .error e
      | .ok (buf'', row) => .ok (buf'', c :: row)

/-- Modelled from the spec: outer loop of the claimed floating-point
dithering variant. -/
def ditherGoFloatClaim (palette : List String) (isBg : Nat → Nat → Bool)
    (w h : Nat) : QBuf → List Nat → Except Unit (QBuf × List (List String))
  | buf, [] => .ok (buf, [])
  | buf, y :: ys =>
    match ditherRowGoFloatClaim palette isBg w h buf y (List.range w) with
    | .error e => .error e
    | .ok (buf', row) =>
      match ditherGoFloatClaim palette isBg w h buf' ys with
      | .error e => .error e
      | .ok (buf'', rows) => .ok (buf'', row :: rows)

/-- Modelled from the spec: the claimed floating-point dithering pass. -/
def ditherGridFloatClaim (palette : List String) (isBg : Nat → Nat → Bool)
    (pix : Nat → Nat → RGB) (w h : Nat) : Except Unit (List (List String)) :=
  match ditherGoFloatClaim palette isBg w h
      (fun p => (((pix p.1 p.2).1 : ℚ), ((pix p.1 p.2).2.1 : ℚ), ((pix p.1 p.2).2.2 : ℚ)))
      (List.range h) with
  | .error e => .error e
  | .ok (_, rows) => .ok rows

/-- The whole grid-producing pipeline of `processImage`: resample, compute
the transparent-pixel set (if background removal is on), then quantize with
or without dithering.  The browser's `drawImage` resampling filter is not
part of the model: `pix` is the pixel buffer *after* resampling, read back
by `getImageData` at the target resolution. -/
def generateGrid (nativeW nativeH maxBeads : Nat) (pix : Nat → Nat → RGB)
    (palette : List String) (dithering removeBackground : Bool) (t : Nat) :
    Except Unit (List (List String)) :=
  let dims := resampleDims nativeW nativeH maxBeads
  let img : Img := ⟨dims.1, dims.2, pix⟩
  let isBg : Nat → Nat → Bool := fun x y =>
    removeBackground && decide ((x, y) ∈ transparentPixels img (bgSeed img) t)
  if dithering then ditherGrid palette isBg pix dims.1 dims.2
  else quantizeGrid palette isBg pix dims.1 dims.2

/-- The three editing tools of the pattern editor. -/
inductive Tool where
  | add
  | erase
  | pick
deriving DecidableEq

/-- The `App.tsx` state that the editing handlers read and write.  The
displayed bitmap (`beadPattern`) is modelled as the block raster produced
from a grid (`rasterize` below); `colorCounts` is the insertion-ordered
record built by the counting loops. -/
structure Session where
  beadColors : List (List String)
  editedBeadColors : List (List String)
  isEditMode : Bool
  hasEdits : Bool
  editTool : Tool
  selectedColor : String
  beadPattern : Nat × Nat → Option String
  colorCounts : List (String × Nat)

/-- Block rasterization of a color grid at `cellSize` magnification:
each non-transparent cell is filled over its `cellSize × cellSize` block,
transparent cells (and anything outside the grid) stay blank.  The
low-opacity grid-line strokes are a purely visual overlay and are not
modelled. -/
def rasterize (grid : List (List String)) (cellSize : Nat) :
    Nat × Nat → Option String :=
  fun q =>
    let cell := (grid.getD (q.2 / cellSize) []).getD (q.1 / cellSize) "transparent"
    if cell = "transparent" then none else some cell

/-- `counts[color] = (counts[color] || 0) + 1` on an insertion-ordered
record modelled as an association list. -/
def bumpCount (counts : List (String × Nat)) (c : String) : List (String × Nat) :=
  match counts with
  | [] => [(c, 1)]
  | (d, n) :: rest => if d = c then (d, n + 1) :: rest else (d, n) :: bumpCount rest c

/-- The color-counting double loop (used by the generation effect and by
`generateEditedPattern`): counts every non-transparent cell. -/
def countColors (grid : List (List String)) : List (String × Nat) :=
  grid.foldl
    (fun counts row =>
      row.foldl
        (fun counts color =>
          if color = "transparent" then counts else bumpCount counts color)
        counts)
    []

/-- Read a color's count out of the record (`counts[c] || 0`). -/
def lookupCount (counts : List (String × Nat)) (c : String) : Nat :=
  match counts with
  | [] => 0
  | (d, n) :: rest => if d = c then n else lookupCount rest c

/-- Number of cells of a grid holding exactly color `c`. -/
def gridCount (grid : List (List String)) (c : String) : Nat :=
  (grid.map fun row => row.count c).sum

/-- `handlePatternEdit` from `App.tsx`.  Coordinates arrive as (possibly
negative) integers computed from pointer positions, hence `Int`.  The
in-place row mutation of the shallow-copied `newBeadColors` is value-level
`List.set` here; the canonical `beadColors` is a separate deep copy in the
source (`JSON.parse(JSON.stringify(...))`), so it is unaffected, as here. -/
def handlePatternEdit (s : Session) (x y : Int) : Session :=
  if s.editedBeadColors.length = 0 ∨ s.isEditMode = false then s
  else
    let width := (s.editedBeadColors.headD []).length
    let height := s.editedBeadColors.length
    if x < 0 ∨ (width : Int) ≤ x ∨ y < 0 ∨ (height : Int) ≤ y then s
    else
      let xn := x.toNat
      let yn := y.toNat
      match s.editTool with
      | Tool.add =>
        { s with
          editedBeadColors :=
            s.editedBeadColors.set yn ((s.editedBeadColors.getD yn []).set xn s.selectedColor)
          hasEdits := true }
      | Tool.erase =>
        { s with
          editedBeadColors :=
            s.editedBeadColors.set yn ((s.editedBeadColors.getD yn []).set xn "transparent")
          hasEdits := true }
      | Tool.pick =>
        if (s.editedBeadColors.getD yn []).getD xn "transparent" ≠ "transparent" then
          { s with
            selectedColor := (s.editedBeadColors.getD yn []).getD xn "transparent"
            editTool := Tool.add
            hasEdits := true }
        else { s with hasEdits := true }

/-- `handleCanvasDraw` from `App.tsx`, at the grid-coordinate level (the
pixel-to-cell arithmetic on `clientX/clientY` is done by the caller's
geometry and is abstracted into the `x`/`y` arguments).  After delegating to
`handlePatternEdit`, the redraw path reads `editedBeadColors[y][x]` whenever
the active tool is not `erase`; if `y` is outside the row range that read is
`undefined[x]` and throws a `TypeError`, modelled as `Except.error`.  (An
out-of-range `x` with an in-range `y` reads `undefined`, which only feeds a
canvas `fillStyle` assignment that the canvas silently ignores.) -/
def handleCanvasDraw (s : Session) (x y : Int) : Except Unit Session :=
  if s.editedBeadColors.length = 0 then .ok s
  else
    let s' := handlePatternEdit s x y
    if s.editTool ≠ Tool.erase then
      if y < 0 ∨ (s.editedBeadColors.length : Int) ≤ y then .error ()
      else .ok s'
    else .ok s'

/-- Entering edit mode (`setIsEditMode(true)`): note the source does *not*
re-clone the canonical grid here; `editedBeadColors` was deep-copied from
the generation result and is restored from `beadColors` on cancel. -/
def enterEdit (s : Session) : Session := { s with isEditMode := true }

/-- `generateEditedPattern` from `App.tsx`: re-rasterizes the edit buffer
into the displayed bitmap and recomputes the color counts from scratch over
the edit buffer.  It does not touch `beadColors`. -/
def generateEditedPattern (s : Session) (beadSize : Nat) : Session :=
  if s.editedBeadColors.length = 0 then s
  else
    { s with
      beadPattern := rasterize s.editedBeadColors beadSize
      colorCounts := countColors s.editedBeadColors }

/-- `applyEdits` from `App.tsx` (the Apply button): regenerate the bitmap
and counts from the edit buffer, then leave edit mode. -/
def applyEdits (s : Session) (beadSize : Nat) : Session :=
  { generateEditedPattern s beadSize with isEditMode := false }

/-- `cancelEdits` from `App.tsx` (the Cancel button): restore the edit
buffer from the canonical grid (a deep copy in the source), clear the
pending-edit flag, leave edit mode. -/
def cancelEdits (s : Session) : Session :=
  { s with
    editedBeadColors := s.beadColors
    hasEdits := false
    isEditMode := false }

/-- A sequence of `handlePatternEdit` invocations. -/
def applyToolSeq (s : Session) (edits : List (Int × Int)) : Session :=
  edits.foldl (fun s e => handlePatternEdit s e.1 e.2) s

/-- Every cell of the grid is either the transparent sentinel or a member
of the allowed color set `A`. -/
def cellsAllowed (A : List String) (grid : List (List String)) : Prop :=
  ∀ row ∈ grid, ∀ c ∈ row, c = "transparent" ∨ c ∈ A

/-- The grid has `h` rows of `w` cells each. -/
def gridDims (w h : Nat) (grid : List (List String)) : Prop :=
  grid.length = h ∧ ∀ row ∈ grid, row.length = w

/-- All in-bounds coordinates of a `w × h` buffer. -/
def allCoords (w h : Nat) : Finset (Nat × Nat) :=
  Finset.range w ×ˢ Finset.range h

/-- The Floyd–Steinberg kernel as claimed: target cells and integer weights
(in sixteenths) for the pixel `(x, y)` of a `w × h` buffer, restricted to
in-bounds targets — right 7/16, below-left 3/16, below 5/16, below-right
1/16. -/
def kernelTaps (w h x y : Nat) : List ((Nat × Nat) × ℤ) :=
  (if x + 1 < w then [((x + 1, y), 7)] else []) ++
  (if y + 1 < h then
    (if 0 < x then [((x - 1, y + 1), 3)] else []) ++ [((x, y + 1), 5)] ++
    (if x + 1 < w then [((x + 1, y + 1), 1)] else [])
   else [])

/-- Result of adding `err * k / 16` to all three channels of one buffer
cell with `Uint8ClampedArray` store semantics. -/
def tapValue (buf : Buf) (errR errG errB : ℤ) (p : Nat × Nat) (k : ℤ) : RGB :=
  (toUint8Clamp16 (16 * (buf p).1 + errR * k),
   toUint8Clamp16 (16 * (buf p).2.1 + errG * k),
   toUint8Clamp16 (16 * (buf p).2.2 + errB * k))

/-! ## Theorems -/

/-- Invariant of the `findClosestColor` loop: starting from a finite
running minimum `m` achieved by `c`, the loop returns either `c` (when no
element of the rest strictly improves on `m`) or the element at the first
index achieving the strict minimum of the rest. -/
theorem findClosestColorAux_spec (r g b : Nat) (l : List String) :
    ∀ (m : ℤ) (c : String),
      ∃ res, findClosestColorAux r g b l (some m) (some c) = some res ∧
        (((∀ d ∈ l, m ≤ dist2 r g b d) ∧ res = c) ∨
          (∃ i : Fin l.length, res = l.get i ∧ dist2 r g b res < m ∧
            (∀ j : Fin l.length, dist2 r g b res ≤ dist2 r g b (l.get j)) ∧
            (∀ j : Fin l.length, (j : Nat) < (i : Nat) →
              dist2 r g b res < dist2 r g b (l.get j)))) := by
  induction l with
  | nil =>
    intro m c
    exact ⟨c, rfl, Or.inl ⟨by simp, rfl⟩⟩
  | cons a l ih =>
    intro m c
    by_cases hlt : dist2 r g b a < m
    · have hstep : findClosestColorAux r g b (a :: l) (some m) (some c) =
          findClosestColorAux r g b l (some (dist2 r g b a)) (some a) := by
        simp [findClosestColorAux, hlt]
      obtain ⟨res, hres, hspec⟩ := ih (dist2 r g b a) a
      refine ⟨res, hstep ▸ hres, Or.inr ?_⟩
      rcases hspec with ⟨hall, rfl⟩ | ⟨i, hresi, hresd, hmin, hfirst⟩
      · refine ⟨⟨0, by simp⟩, rfl, hlt, ?_, ?_⟩
        · intro j
          rcases j with ⟨j, hj⟩
          match j, hj with
          | 0, _ => simp
          | Nat.succ k, hj =>
            have hk : l.get ⟨k, by simpa using hj⟩ ∈ l := List.get_mem _ _ _
            simpa using hall _ hk
        · intro j hj
          simp at hj
      · refine ⟨⟨(i : Nat) + 1, by simp [i.isLt]⟩, by simpa using hresi, lt_trans hresd hlt, ?_, ?_⟩
        · intro j
          rcases j with ⟨j, hj⟩
          match j, hj with
          | 0, _ => simpa using le_of_lt hresd
          | Nat.succ k, hj => simpa using hmin ⟨k, by simpa using hj⟩
        · intro j hj
          rcases j with ⟨j, hj'⟩
          match j, hj', hj with
          | 0, _, _ => simpa using hresd
          | Nat.succ k, hj', hj =>
            have hk : k < (i : Nat) := by simpa using hj
            simpa using hfirst ⟨k, by simpa using hj'⟩ hk
    · have hstep : findClosestColorAux r g b (a :: l) (some m) (some c) =
          findClosestColorAux r g b l (some m) (some c) := by
        simp [findClosestColorAux, hlt]
      obtain ⟨res, hres, hspec⟩ := ih m c
      refine ⟨res, hstep ▸ hres, ?_⟩
      rcases hspec with ⟨hall, rfl⟩ | ⟨i, hresi, hresd, hmin, hfirst⟩
      · exact Or.inl ⟨by simpa [not_lt.mp hlt] using hall, rfl⟩
      · refine Or.inr ⟨⟨(i : Nat) + 1, by simp [i.isLt]⟩, by simpa using hresi, hresd, ?_, ?_⟩
        · intro j
          rcases j with ⟨j, hj⟩
          match j, hj with
          | 0, _ =>
            have : m ≤ dist2 r g b a := not_lt.mp hlt
            simpa using le_trans (le_of_lt hresd) this
          | Nat.succ k, hj => simpa using hmin ⟨k, by simpa using hj⟩
        · intro j hj
          rcases j with ⟨j, hj'⟩
          match j, hj', hj with
          | 0, _, _ =>
            have : m ≤ dist2 r g b a := not_lt.mp hlt
            simpa using lt_of_lt_of_le hresd this
          | Nat.succ k, hj', hj =>
            have hk : k < (i : Nat) := by simpa using hj
            simpa using hfirst ⟨k, by simpa using hj'⟩ hk

/-- C1: for every query RGB color and non-empty palette, `findClosestColor`
returns the palette entry at the earliest index achieving the minimum
(squared, equivalently plain) Euclidean RGB distance to the query: its
distance is ≤ every entry's distance, and every strictly earlier entry has
strictly greater distance — so a duplicate entry can never be chosen over an
equal earlier entry. -/
theorem findClosestColor_first_min (r g b : Nat) (palette : List String)
    (hp : palette ≠ []) :
    ∃ i : Fin palette.length,
      findClosestColor r g b palette = some (palette.get i) ∧
      (∀ j : Fin palette.length,
        dist2 r g b (palette.get i) ≤ dist2 r g b (palette.get j)) ∧
      (∀ j : Fin palette.length, (j : Nat) < (i : Nat) →
        dist2 r g b (palette.get i) < dist2 r g b (palette.get j)) := by
  match palette, hp with
  | a :: l, _ =>
    have hstep : findClosestColor r g b (a :: l) =
        findClosestColorAux r g b l (some (dist2 r g b a)) (some a) := by
      simp [findClosestColor, findClosestColorAux]
    obtain ⟨res, hres, hspec⟩ := findClosestColorAux_spec r g b l (dist2 r g b a) a
    rcases hspec with ⟨hall, rfl⟩ | ⟨i, hresi, hresd, hmin, hfirst⟩
    · refine ⟨⟨0, by simp⟩, by rw [hstep, hres]; simp, ?_, ?_⟩
      · intro j
        rcases j with ⟨j, hj⟩
        match j, hj with
        | 0, _ => simp
        | Nat.succ k, hj =>
          have hk : l.get ⟨k, by simpa using hj⟩ ∈ l := List.get_mem _ _ _
          simpa using hall _ hk
      · intro j hj
        simp at hj
    · subst hresi
      refine ⟨⟨(i : Nat) + 1, by simp [i.isLt]⟩, ?_, ?_, ?_⟩
      · rw [hstep, hres]; simp
      · intro j
        rcases j with ⟨j, hj⟩
        match j, hj with
        | 0, _ => simpa using le_of_lt hresd
        | Nat.succ k, hj => simpa using hmin ⟨k, by simpa using hj⟩
      · intro j hj
        rcases j with ⟨j, hj'⟩
        match j, hj', hj with
        | 0, _, _ => simpa using hresd
        | Nat.succ k, hj', hj =>
          have hk : k < (i : Nat) := by simpa using hj
          simpa using hfirst ⟨k, by simpa using hj'⟩ hk

/-- Witness for C1 at a concrete query and palette. -/
theorem findClosestColor_first_min_witness :
    ∃ i : Fin (["#FF0000", "#0000FF"] : List String).length,
      findClosestColor 250 10 10 ["#FF0000", "#0000FF"] =
        some ((["#FF0000", "#0000FF"] : List String).get i) ∧
      (∀ j, dist2 250 10 10 ((["#FF0000", "#0000FF"] : List String).get i) ≤
        dist2 250 10 10 ((["#FF0000", "#0000FF"] : List String).get j)) ∧
      (∀ j : Fin (["#FF0000", "#0000FF"] : List String).length,
        (j : Nat) < (i : Nat) →
        dist2 250 10 10 ((["#FF0000", "#0000FF"] : List String).get i) <
          dist2 250 10 10 ((["#FF0000", "#0000FF"] : List String).get j)) :=
  findClosestColor_first_min 250 10 10 ["#FF0000", "#0000FF"] (by decide)

/-- C2 counterexample: the resampler applies no minimum of 1 to the scaled
short axis.  For a native 100×1 image with `maxCells = 10` the code returns
`(10, 0)` — the short axis is `Math.round(1 * 10/100) = 0`, not floored to
`1` as the claim states. -/
theorem resampleDims_no_floor :
    resampleDims 100 1 10 = (10, 0) ∧ ¬ 1 ≤ (resampleDims 100 1 10).2 := by
  constructor
  · decide
  · decide

/-- C2 (amended): for positive native dimensions and positive `maxCells`,
if the longer native axis is within `maxCells` both dimensions are returned
unchanged; otherwise the longer output axis equals `maxCells` and the
shorter axis is scaled by the same ratio and rounded to the nearest integer
(round half up), with no lower bound — it can round to 0.  In particular
`maxCells = 10` on a native 20×10 image yields 10×5. -/
theorem resampleDims_spec (w h m : Nat) (hw : 0 < w) (hh : 0 < h) (hm : 0 < m) :
    (max w h ≤ m → resampleDims w h m = (w, h)) ∧
    (m < max w h →
      max (resampleDims w h m).1 (resampleDims w h m).2 = m ∧
      min (resampleDims w h m).1 (resampleDims w h m).2 =
        jsRound (min w h * m) (max w h)) ∧
    resampleDims 20 10 10 = (10, 5) := by
  have hj : ∀ a b : Nat, a ≤ b → 0 < b → jsRound (a * m) b ≤ m := by
    intro a b hab hb
    unfold jsRound
    have hmul : a * m ≤ b * m := Nat.mul_le_mul_right m hab
    rw [Nat.div_le_iff_le_mul_add_pred (by omega)]
    have h2 : 2 * b * m = 2 * (b * m) := Nat.mul_assoc 2 b m
    omega
  refine ⟨?_, ?_, by decide⟩
  · intro hle
    unfold resampleDims
    rcases Nat.lt_or_ge h w with hlt | hge
    · have : ¬ m < w := by omega
      simp [hlt, this]
    · have : ¬ m < h := by omega
      simp [show ¬ h < w by omega, this]
  · intro hgt
    unfold resampleDims
    rcases Nat.lt_or_ge h w with hlt | hge
    · have hmw : m < w := by omega
      have hle : jsRound (h * m) w ≤ m := hj h w (le_of_lt hlt) (by omega)
      simp only [hlt, if_pos, hmw]
      constructor
      · simp [Nat.max_eq_left hle]
      · rw [Nat.min_eq_right hle, Nat.min_eq_right (le_of_lt hlt),
          Nat.max_eq_left (le_of_lt hlt)]
    · have hmh : m < h := by omega
      have hle : jsRound (w * m) h ≤ m := hj w h hge (by omega)
      simp only [show ¬ h < w by omega, if_neg, not_false_iff, hmh, if_pos]
      constructor
      · simp [Nat.max_eq_right hle]
      · rw [Nat.min_eq_left hle, Nat.min_eq_left hge, Nat.max_eq_right hge]

/-- Witness for C2 (amended) at native 20×10 with `maxCells = 10`. -/
theorem resampleDims_spec_witness :
    (max 20 10 ≤ 10 → resampleDims 20 10 10 = (20, 10)) ∧
    (10 < max 20 10 →
      max (resampleDims 20 10 10).1 (resampleDims 20 10 10).2 = 10 ∧
      min (resampleDims 20 10 10).1 (resampleDims 20 10 10).2 =
        jsRound (min 20 10 * 10) (max 20 10)) ∧
    resampleDims 20 10 10 = (10, 5) :=
  resampleDims_spec 20 10 10 (by decide) (by decide) (by decide)

/-- Membership in the tail of `List.range`. -/
theorem mem_drop_one_range (n y : Nat) :
    y ∈ (List.range n).drop 1 ↔ 1 ≤ y ∧ y < n := by
  cases n with
  | zero => simp
  | succ m =>
    rw [List.range_succ_eq_map]
    simp only [List.drop_succ_cons, List.drop_zero, List.mem_map, List.mem_range]
    constructor
    · rintro ⟨k, hk, rfl⟩; omega
    · rintro ⟨h1, h2⟩; exact ⟨y - 1, by omega, by omega⟩

/-- Characterisation of the flood fill's neighbour pushes. -/
theorem mem_bgNeighbors (w h x y : Nat) (q : Nat × Nat) :
    q ∈ bgNeighbors w h x y ↔
      ((0 < x ∧ q = (x - 1, y)) ∨ (x < w - 1 ∧ q = (x + 1, y)) ∨
       (0 < y ∧ q = (x, y - 1)) ∨ (y < h - 1 ∧ q = (x, y + 1))) := by
  unfold bgNeighbors
  split_ifs <;>
    simp only [List.mem_append, List.mem_singleton, List.not_mem_nil, or_false,
      false_or, List.mem_cons] <;>
    simp [*, or_assoc]

/-- Neighbour pushes stay in bounds when the popped pixel is in bounds. -/
theorem bgNeighbors_inBounds (w h x y : Nat) (hx : x < w) (hy : y < h) :
    ∀ q ∈ bgNeighbors w h x y, inBoundsP w h q := by
  intro q hq
  rw [mem_bgNeighbors] at hq
  rcases hq with ⟨h1, rfl⟩ | ⟨h1, rfl⟩ | ⟨h1, rfl⟩ | ⟨h1, rfl⟩ <;>
    exact ⟨by omega, by omega⟩

/-- Neighbour pushes are 4-adjacent to the popped pixel. -/
theorem bgNeighbors_adj (w h x y : Nat) :
    ∀ q ∈ bgNeighbors w h x y, adj4 (x, y) q := by
  intro q hq
  rw [mem_bgNeighbors] at hq
  unfold adj4
  rcases hq with ⟨h1, rfl⟩ | ⟨h1, rfl⟩ | ⟨h1, rfl⟩ | ⟨h1, rfl⟩ <;> simp <;> omega

/-- Every in-bounds 4-neighbour is among the flood fill's pushes. -/
theorem adj_mem_bgNeighbors (w h : Nat) (p q : Nat × Nat) (hadj : adj4 p q)
    (hq : inBoundsP w h q) : q ∈ bgNeighbors w h p.1 p.2 := by
  rcases p with ⟨px, py⟩
  rcases q with ⟨qx, qy⟩
  rw [mem_bgNeighbors]
  unfold adj4 at hadj
  unfold inBoundsP at hq
  simp only [Prod.mk.injEq] at hadj hq ⊢
  rcases hadj with ⟨hy, hx | hx⟩ | ⟨hx, hy | hy⟩
  · exact Or.inr (Or.inl ⟨by omega, by omega, by omega⟩)
  · exact Or.inl ⟨by omega, by omega, by omega⟩
  · exact Or.inr (Or.inr (Or.inr ⟨by omega, by omega, by omega⟩))
  · exact Or.inr (Or.inr (Or.inl ⟨by omega, by omega, by omega⟩))

/-- The initial queue holds exactly the in-bounds border pixels. -/
theorem mem_borderQueue (w h : Nat) (hw : 0 < w) (hh : 0 < h) (p : Nat × Nat) :
    p ∈ borderQueue w h ↔ inBoundsP w h p ∧ onBorder w h p := by
  rcases p with ⟨x, y⟩
  unfold borderQueue
  rw [List.mem_append]
  simp only [List.mem_flatMap, List.mem_range, mem_drop_one_range, List.mem_cons,
    List.not_mem_nil, or_false, Prod.mk.injEq]
  unfold inBoundsP onBorder
  constructor
  · rintro (⟨x', hx', ⟨rfl, rfl⟩ | ⟨rfl, rfl⟩⟩ | ⟨y', ⟨hy1, hy2⟩, ⟨rfl, rfl⟩ | ⟨rfl, rfl⟩⟩)
    · exact ⟨⟨hx', by omega⟩, by omega⟩
    · exact ⟨⟨hx', by omega⟩, by omega⟩
    · exact ⟨⟨by omega, by omega⟩, by omega⟩
    · exact ⟨⟨by omega, by omega⟩, by omega⟩
  · rintro ⟨⟨hx, hy⟩, hb⟩
    by_cases hy0 : y = 0
    · exact Or.inl ⟨x, hx, Or.inl ⟨rfl, by omega⟩⟩
    · by_cases hyh : y = h - 1
      · exact Or.inl ⟨x, hx, Or.inr ⟨rfl, by omega⟩⟩
      · rcases hb with hb | hb | hb | hb
        · exact Or.inr ⟨y, ⟨by omega, by omega⟩, Or.inl ⟨by omega, rfl⟩⟩
        · exact Or.inr ⟨y, ⟨by omega, by omega⟩, Or.inr ⟨by omega, rfl⟩⟩
        · exact absurd hb hy0
        · exact absurd hb hyh

/-- `allCoords` membership. -/
theorem mem_allCoords (w h : Nat) (p : Nat × Nat) :
    p ∈ allCoords w h ↔ inBoundsP w h p := by
  unfold allCoords inBoundsP
  simp [Finset.mem_product]

/-- Visiting a fresh in-bounds pixel shrinks the unvisited count by one. -/
theorem card_sdiff_insert_visited (s t : Finset (Nat × Nat)) (a : Nat × Nat)
    (ha : a ∈ s) (hat : a ∉ t) :
    (s \ insert a t).card + 1 = (s \ t).card := by
  have h1 : s \ insert a t = (s \ t).erase a := by
    ext b
    simp only [Finset.mem_sdiff, Finset.mem_insert, Finset.mem_erase]
    tauto
  have h2 : a ∈ s \ t := Finset.mem_sdiff.mpr ⟨ha, hat⟩
  rw [h1, Finset.card_erase_of_mem h2]
  have : 0 < (s \ t).card := Finset.card_pos.mpr ⟨a, h2⟩
  omega

/-- Soundness of the flood fill: anything it marks transparent is reachable
from the border through within-threshold pixels, provided the pending queue
only holds in-bounds pixels that are reachable whenever within threshold. -/
theorem bgFill_sound (img : Img) (seed : RGB) (t : Nat) :
    ∀ (fuel : Nat) (q : List (Nat × Nat)) (v T : Finset (Nat × Nat)),
      (∀ p ∈ q, inBoundsP img.width img.height p) →
      (∀ p ∈ q, withinBg img seed t p = true → BgReach img seed t p) →
      (∀ p ∈ T, BgReach img seed t p) →
      ∀ p ∈ (bgFill img seed t fuel q v T).2, BgReach img seed t p := by
  intro fuel
  induction fuel with
  | zero =>
    intro q v T _ _ hT p hp
    exact hT p (by simpa [bgFill] using hp)
  | succ fuel ih =>
    intro q v T hqb hqr hT
    match q with
    | [] =>
      intro p hp
      exact hT p (by simpa [bgFill] using hp)
    | a :: rest =>
      by_cases hv : a ∈ v
      · rw [bgFill, if_pos hv]
        exact ih rest v T (fun p hp => hqb p (List.mem_cons_of_mem a hp))
          (fun p hp => hqr p (List.mem_cons_of_mem a hp)) hT
      · by_cases hwi : withinBg img seed t a = true
        · rw [bgFill, if_neg hv, if_pos hwi]
          have hra : BgReach img seed t a := hqr a (List.mem_cons_self a rest) hwi
          have hab : inBoundsP img.width img.height a := hqb a (List.mem_cons_self a rest)
          apply ih
          · intro p hp
            rcases List.mem_append.mp hp with hp | hp
            · exact hqb p (List.mem_cons_of_mem a hp)
            · exact bgNeighbors_inBounds _ _ _ _ hab.1 hab.2 p hp
          · intro p hp hwp
            rcases List.mem_append.mp hp with hp | hp
            · exact hqr p (List.mem_cons_of_mem a hp) hwp
            · refine BgReach.step a p hra ?_
                (bgNeighbors_inBounds _ _ _ _ hab.1 hab.2 p hp) hwp
              have := bgNeighbors_adj img.width img.height a.1 a.2 p hp
              simpa using this
          · intro p hp
            rcases Finset.mem_insert.mp hp with rfl | hp
            · exact hra
            · exact hT p hp
        · rw [bgFill, if_neg hv, if_neg hwi]
          exact ih rest (insert a v) T (fun p hp => hqb p (List.mem_cons_of_mem a hp))
            (fun p hp => hqr p (List.mem_cons_of_mem a hp)) hT

/-- The neighbour list never holds more than four pixels. -/
theorem bgNeighbors_length_le (w h x y : Nat) :
    (bgNeighbors w h x y).length ≤ 4 := by
  unfold bgNeighbors
  split_ifs <;> simp

/-- Completeness of the flood fill: with enough fuel, the final state has
(i) every queued pixel visited, (ii) every already-visited pixel still
visited, (iii) every visited within-threshold pixel transparent, and
(iv) every neighbour of a transparent pixel visited. -/
theorem bgFill_complete (img : Img) (seed : RGB) (t : Nat) :
    ∀ (fuel : Nat) (q : List (Nat × Nat)) (v T : Finset (Nat × Nat)),
      q.length + 4 * (allCoords img.width img.height \ v).card ≤ fuel →
      (∀ p ∈ q, inBoundsP img.width img.height p) →
      (∀ p ∈ v, withinBg img seed t p = true → p ∈ T) →
      (∀ p ∈ T, ∀ p' ∈ bgNeighbors img.width img.height p.1 p.2,
        p' ∈ q ∨ p' ∈ v) →
      (∀ p ∈ q, p ∈ (bgFill img seed t fuel q v T).1) ∧
      v ⊆ (bgFill img seed t fuel q v T).1 ∧
      (∀ p ∈ (bgFill img seed t fuel q v T).1, withinBg img seed t p = true →
        p ∈ (bgFill img seed t fuel q v T).2) ∧
      (∀ p ∈ (bgFill img seed t fuel q v T).2,
        ∀ p' ∈ bgNeighbors img.width img.height p.1 p.2,
          p' ∈ (bgFill img seed t fuel q v T).1) := by
  intro fuel
  induction fuel with
  | zero =>
    intro q v T hfuel hqb h1 h2
    match q with
    | [] =>
      simp only [bgFill]
      refine ⟨by simp, Finset.Subset.refl v, h1, ?_⟩
      intro p hp p' hp'
      rcases h2 p hp p' hp' with hmem | hmem
      · simp at hmem
      · exact hmem
    | a :: rest =>
      exfalso
      simp only [List.length_cons] at hfuel
      omega
  | succ fuel ih =>
    intro q v T hfuel hqb h1 h2
    match q with
    | [] =>
      simp only [bgFill]
      refine ⟨by simp, Finset.Subset.refl v, h1, ?_⟩
      intro p hp p' hp'
      rcases h2 p hp p' hp' with hmem | hmem
      · simp at hmem
      · exact hmem
    | a :: rest =>
      have hainb : inBoundsP img.width img.height a := hqb a (List.mem_cons_self a rest)
      by_cases hv : a ∈ v
      · rw [bgFill, if_pos hv]
        have hfuel' : rest.length + 4 * (allCoords img.width img.height \ v).card ≤ fuel := by
          simp only [List.length_cons] at hfuel; omega
        obtain ⟨c1, c2, c3, c4⟩ := ih rest v T hfuel'
          (fun p hp => hqb p (List.mem_cons_of_mem a hp)) h1
          (by
            intro p hp p' hp'
            rcases h2 p hp p' hp' with hmem | hmem
            · rcases List.mem_cons.mp hmem with rfl | hmem
              · exact Or.inr hv
              · exact Or.inl hmem
            · exact Or.inr hmem)
        refine ⟨?_, c2, c3, c4⟩
        intro p hp
        rcases List.mem_cons.mp hp with rfl | hp
        · exact c2 hv
        · exact c1 p hp
      · have hcard : (allCoords img.width img.height \ insert a v).card + 1 =
            (allCoords img.width img.height \ v).card :=
          card_sdiff_insert_visited _ _ a ((mem_allCoords _ _ a).mpr hainb) hv
        by_cases hwi : withinBg img seed t a = true
        · rw [bgFill, if_neg hv, if_pos hwi]
          have hlen := bgNeighbors_length_le img.width img.height a.1 a.2
          have hfuel' : (rest ++ bgNeighbors img.width img.height a.1 a.2).length +
              4 * (allCoords img.width img.height \ insert a v).card ≤ fuel := by
            simp only [List.length_cons, List.length_append] at hfuel ⊢
            omega
          obtain ⟨c1, c2, c3, c4⟩ := ih
            (rest ++ bgNeighbors img.width img.height a.1 a.2)
            (insert a v) (insert a T) hfuel'
            (by
              intro p hp
              rcases List.mem_append.mp hp with hp | hp
              · exact hqb p (List.mem_cons_of_mem a hp)
              · exact bgNeighbors_inBounds _ _ _ _ hainb.1 hainb.2 p hp)
            (by
              intro p hp hwp
              rcases Finset.mem_insert.mp hp with rfl | hp
              · exact Finset.mem_insert_self p T
              · exact Finset.mem_insert_of_mem (h1 p hp hwp))
            (by
              intro p hp p' hp'
              rcases Finset.mem_insert.mp hp with rfl | hp
              · exact Or.inl (List.mem_append_right rest hp')
              · rcases h2 p hp p' hp' with hmem | hmem
                · rcases List.mem_cons.mp hmem with rfl | hmem
                  · exact Or.inr (Finset.mem_insert_self p' v)
                  · exact Or.inl (List.mem_append_left _ hmem)
                · exact Or.inr (Finset.mem_insert_of_mem hmem))
          refine ⟨?_, Finset.Subset.trans (Finset.subset_insert a v) c2, c3, c4⟩
          intro p hp
          rcases List.mem_cons.mp hp with rfl | hp
          · exact c2 (Finset.mem_insert_self p v)
          · exact c1 p (List.mem_append_left _ hp)
        · rw [bgFill, if_neg hv, if_neg hwi]
          have hfuel' : rest.length +
              4 * (allCoords img.width img.height \ insert a v).card ≤ fuel := by
            simp only [List.length_cons] at hfuel
            omega
          obtain ⟨c1, c2, c3, c4⟩ := ih rest (insert a v) T hfuel'
            (fun p hp => hqb p (List.mem_cons_of_mem a hp))
            (by
              intro p hp hwp
              rcases Finset.mem_insert.mp hp with rfl | hp
              · exact absurd hwp hwi
              · exact h1 p hp hwp)
            (by
              intro p hp p' hp'
              rcases h2 p hp p' hp' with hmem | hmem
              · rcases List.mem_cons.mp hmem with rfl | hmem
                · exact Or.inr (Finset.mem_insert_self p' v)
                · exact Or.inl hmem
              · exact Or.inr (Finset.mem_insert_of_mem hmem))
          refine ⟨?_, Finset.Subset.trans (Finset.subset_insert a v) c2, c3, c4⟩
          intro p hp
          rcases List.mem_cons.mp hp with rfl | hp
          · exact c2 (Finset.mem_insert_self p v)
          · exact c1 p hp

/-- C3: with background removal enabled, a pixel coordinate is in the
transparent-pixel set iff it is reachable from the buffer border through a
4-connected chain of pixels each of whose normalized Euclidean distance to
the seed background color is strictly below `threshold/100`.  In particular
an interior pixel that is not so reachable is never marked transparent, even
if its color matches the background. -/
theorem transparentPixels_iff_reach (img : Img) (seed : RGB) (t : Nat)
    (hw : 0 < img.width) (hh : 0 < img.height) (p : Nat × Nat) :
    p ∈ transparentPixels img seed t ↔ BgReach img seed t p := by
  unfold transparentPixels
  constructor
  · intro hp
    refine bgFill_sound img seed t (bgFillFuel img)
      (borderQueue img.width img.height) ∅ ∅ ?_ ?_ ?_ p hp
    · intro p' hp'
      exact ((mem_borderQueue _ _ hw hh p').mp hp').1
    · intro p' hp' hwp'
      obtain ⟨hb, ho⟩ := (mem_borderQueue _ _ hw hh p').mp hp'
      exact BgReach.border p' hb ho hwp'
    · intro p' hp'
      simp at hp'
  · intro hr
    have hfuel : (borderQueue img.width img.height).length +
        4 * (allCoords img.width img.height \ ∅).card ≤ bgFillFuel img := by
      have hcard : (allCoords img.width img.height \ ∅).card =
          img.width * img.height := by
        simp [allCoords, Finset.sdiff_empty, Finset.card_product, Finset.card_range]
      rw [hcard]
      exact Nat.le_refl _
    obtain ⟨c1, c2, c3, c4⟩ := bgFill_complete img seed t (bgFillFuel img)
      (borderQueue img.width img.height) ∅ ∅ hfuel
      (fun p' hp' => ((mem_borderQueue _ _ hw hh p').mp hp').1)
      (by intro p' hp' _; simp at hp')
      (by intro p' hp'; simp at hp')
    induction hr with
    | border p hb ho hwp =>
      exact c3 p (c1 p ((mem_borderQueue _ _ hw hh p).mpr ⟨hb, ho⟩)) hwp
    | step p q hp hadj hqb hwq ihp =>
      exact c3 q (c4 p ihp q (adj_mem_bgNeighbors _ _ p q hadj hqb)) hwq

/-- Witness for C3 on a concrete 1×1 buffer. -/
theorem transparentPixels_iff_reach_witness :
    0 < (Img.mk 1 1 fun _ _ => (0, 0, 0)).width ∧
    0 < (Img.mk 1 1 fun _ _ => (0, 0, 0)).height ∧
    ((0, 0) ∈ transparentPixels (Img.mk 1 1 fun _ _ => (0, 0, 0)) (0, 0, 0) 50 ↔
      BgReach (Img.mk 1 1 fun _ _ => (0, 0, 0)) (0, 0, 0) 50 (0, 0)) :=
  ⟨by decide, by decide,
    transparentPixels_iff_reach (Img.mk 1 1 fun _ _ => (0, 0, 0)) (0, 0, 0) 50
      (by decide) (by decide) (0, 0)⟩

/-- Squared RGB distances are non-negative. -/
theorem sqDistRGB_nonneg (c d : RGB) : 0 ≤ sqDistRGB c d := by
  unfold sqDistRGB
  positivity

/-- With threshold 0 the strict membership test never holds. -/
theorem withinBg_zero (img : Img) (seed : RGB) (p : Nat × Nat) :
    withinBg img seed 0 p = false := by
  have h := sqDistRGB_nonneg (img.pix p.1 p.2) seed
  unfold withinBg
  rw [decide_eq_false_iff_not]
  push_neg
  norm_num
  omega

/-- If no pixel is within threshold, the flood fill never adds to the
transparent set. -/
theorem bgFill_no_within (img : Img) (seed : RGB) (t : Nat)
    (hno : ∀ p, withinBg img seed t p = false) :
    ∀ (fuel : Nat) (q : List (Nat × Nat)) (v T : Finset (Nat × Nat)),
      (bgFill img seed t fuel q v T).2 = T := by
  intro fuel
  induction fuel with
  | zero => intro q v T; rfl
  | succ fuel ih =>
    intro q v T
    match q with
    | [] => rfl
    | a :: rest =>
      by_cases hv : a ∈ v
      · rw [bgFill, if_pos hv]; exact ih rest v T
      · rw [bgFill, if_neg hv, if_neg (by simp [hno a])]
        exact ih rest (insert a v) T

/-- The loop of `findClosestColor` only ever returns the initial accumulator
or a list element. -/
theorem findClosestColorAux_mem (r g b : Nat) :
    ∀ (l : List String) (minD : Option ℤ) (closest : Option String) (c : String),
      findClosestColorAux r g b l minD closest = some c →
      c ∈ l ∨ closest = some c := by
  intro l
  induction l with
  | nil =>
    intro minD closest c h
    exact Or.inr (by simpa [findClosestColorAux] using h)
  | cons a l ih =>
    intro minD closest c h
    match minD with
    | none =>
      have h' : findClosestColorAux r g b l (some (dist2 r g b a)) (some a) = some c := by
        simpa [findClosestColorAux] using h
      rcases ih _ _ _ h' with h1 | h1
      · exact Or.inl (List.mem_cons_of_mem a h1)
      · simp only [Option.some.injEq] at h1
        exact Or.inl (h1 ▸ List.mem_cons_self a l)
    | some m =>
      by_cases hd : dist2 r g b a < m
      · have h' : findClosestColorAux r g b l (some (dist2 r g b a)) (some a) = some c := by
          simpa [findClosestColorAux, hd] using h
        rcases ih _ _ _ h' with h1 | h1
        · exact Or.inl (List.mem_cons_of_mem a h1)
        · simp only [Option.some.injEq] at h1
          exact Or.inl (h1 ▸ List.mem_cons_self a l)
      · have h' : findClosestColorAux r g b l (some m) closest = some c := by
          simpa [findClosestColorAux, hd] using h
        rcases ih _ _ _ h' with h1 | h1
        · exact Or.inl (List.mem_cons_of_mem a h1)
        · exact Or.inr h1

/-- A successful nearest-color search returns a palette member. -/
theorem findClosestColor_mem (r g b : Nat) (palette : List String) (c : String)
    (h : findClosestColor r g b palette = some c) : c ∈ palette := by
  rcases findClosestColorAux_mem r g b palette none palette.head? c h with h1 | h1
  · exact h1
  · cases palette with
    | nil => simp at h1
    | cons a l =>
      simp only [List.head?_cons, Option.some.injEq] at h1
      exact h1 ▸ List.mem_cons_self a l

/-- Destructor for a successful `traverseE` step. -/
theorem traverseE_cons_ok {α β : Type} (f : α → Except Unit β) (a : α)
    (l : List α) (bs : List β) (h : traverseE f (a :: l) = .ok bs) :
    ∃ b bs', f a = .ok b ∧ traverseE f l = .ok bs' ∧ bs = b :: bs' := by
  unfold traverseE at h
  cases hfa : f a with
  | error e => rw [hfa] at h; simp at h
  | ok b =>
    rw [hfa] at h
    cases hrec : traverseE f l with
    | error e => rw [hrec] at h; simp at h
    | ok bs' =>
      rw [hrec] at h
      simp only [Except.ok.injEq] at h
      exact ⟨b, bs', rfl, rfl, h.symm⟩

/-- A successful `traverseE` produces one output per input. -/
theorem traverseE_ok_length {α β : Type} (f : α → Except Unit β) :
    ∀ (l : List α) (bs : List β), traverseE f l = .ok bs → bs.length = l.length := by
  intro l
  induction l with
  | nil =>
    intro bs h
    simp only [traverseE, Except.ok.injEq] at h
    simp [← h]
  | cons a l ih =>
    intro bs h
    obtain ⟨b, bs', _, hrec, rfl⟩ := traverseE_cons_ok f a l bs h
    simp [ih bs' hrec]

/-- Every output of a successful `traverseE` satisfies any property that all
successful element results satisfy. -/
theorem traverseE_ok_forall {α β : Type} (f : α → Except Unit β) (P : β → Prop) :
    ∀ (l : List α) (bs : List β), traverseE f l = .ok bs →
      (∀ a ∈ l, ∀ b, f a = .ok b → P b) → ∀ b ∈ bs, P b := by
  intro l
  induction l with
  | nil =>
    intro bs h _ b hb
    simp only [traverseE, Except.ok.injEq] at h
    rw [← h] at hb
    simp at hb
  | cons a l ih =>
    intro bs h hall b hb
    obtain ⟨b', bs', hfa, hrec, rfl⟩ := traverseE_cons_ok f a l bs h
    rcases List.mem_cons.mp hb with rfl | hb
    · exact hall a (List.mem_cons_self a l) b hfa
    · exact ih bs' hrec (fun a' ha' => hall a' (List.mem_cons_of_mem a ha')) b hb

/-- A successful `traverseE` means every element succeeded. -/
theorem traverseE_ok_elem {α β : Type} (f : α → Except Unit β) :
    ∀ (l : List α) (bs : List β), traverseE f l = .ok bs →
      ∀ a ∈ l, ∃ b, f a = .ok b := by
  intro l
  induction l with
  | nil => intro bs _ a ha; simp at ha
  | cons a l ih =>
    intro bs h a' ha'
    obtain ⟨b, bs', hfa, hrec, rfl⟩ := traverseE_cons_ok f a l bs h
    rcases List.mem_cons.mp ha' with rfl | ha'
    · exact ⟨b, hfa⟩
    · exact ih bs' hrec a' ha'

/-- Case analysis of one successful dithering step: transparent pixels keep
the buffer and get the sentinel; others get a successful nearest-color
lookup on the current working values. -/
theorem ditherPixel_ok_cases (palette : List String) (isBg : Nat → Nat → Bool)
    (w h : Nat) (buf : Buf) (x y : Nat) (buf' : Buf) (c : String)
    (hok : ditherPixel palette isBg w h buf x y = .ok (buf', c)) :
    (isBg x y = true ∧ c = "transparent" ∧ buf' = buf) ∨
    (isBg x y = false ∧
      findClosestColor (buf (x, y)).1 (buf (x, y)).2.1 (buf (x, y)).2.2 palette =
        some c) := by
  unfold ditherPixel at hok
  by_cases hbg : isBg x y
  · rw [if_pos hbg] at hok
    simp only [Except.ok.injEq, Prod.mk.injEq] at hok
    exact Or.inl ⟨hbg, hok.2.symm, hok.1.symm⟩
  · rw [if_neg hbg] at hok
    cases hfc : findClosestColor (buf (x, y)).1 (buf (x, y)).2.1 (buf (x, y)).2.2 palette with
    | none => rw [hfc] at hok; simp at hok
    | some c0 =>
      rw [hfc] at hok
      simp only [Except.ok.injEq, Prod.mk.injEq] at hok
      exact Or.inr ⟨Bool.eq_false_iff.mpr hbg, by rw [hok.2]⟩

/-- Destructor for one successful step of the inner dithering loop. -/
theorem ditherRowGo_cons_ok (palette : List String) (isBg : Nat → Nat → Bool)
    (w h : Nat) (buf : Buf) (y x : Nat) (xs : List Nat) (buf2 : Buf)
    (row : List String)
    (hok : ditherRowGo palette isBg w h buf y (x :: xs) = .ok (buf2, row)) :
    ∃ buf1 c row', ditherPixel palette isBg w h buf x y = .ok (buf1, c) ∧
      ditherRowGo palette isBg w h buf1 y xs = .ok (buf2, row') ∧
      row = c :: row' := by
  unfold ditherRowGo at hok
  cases hp : ditherPixel palette isBg w h buf x y with
  | error e => rw [hp] at hok; simp at hok
  | ok v =>
    obtain ⟨buf1, c⟩ := v
    rw [hp] at hok
    dsimp only at hok
    cases hrec : ditherRowGo palette isBg w h buf1 y xs with
    | error e => rw [hrec] at hok; simp at hok
    | ok v' =>
      obtain ⟨buf2', row'⟩ := v'
      rw [hrec] at hok
      simp only [Except.ok.injEq, Prod.mk.injEq] at hok
      exact ⟨buf1, c, row', rfl, by rw [hrec, hok.1], hok.2.symm⟩

/-- Destructor for one successful step of the outer dithering loop. -/
theorem ditherGo_cons_ok (palette : List String) (isBg : Nat → Nat → Bool)
    (w h : Nat) (buf : Buf) (y : Nat) (ys : List Nat) (buf2 : Buf)
    (rows : List (List String))
    (hok : ditherGo palette isBg w h buf (y :: ys) = .ok (buf2, rows)) :
    ∃ buf1 row rows', ditherRowGo palette isBg w h buf y (List.range w) = .ok (buf1, row) ∧
      ditherGo palette isBg w h buf1 ys = .ok (buf2, rows') ∧
      rows = row :: rows' := by
  unfold ditherGo at hok
  cases hp : ditherRowGo palette isBg w h buf y (List.range w) with
  | error e => rw [hp] at hok; simp at hok
  | ok v =>
    obtain ⟨buf1, row⟩ := v
    rw [hp] at hok
    dsimp only at hok
    cases hrec : ditherGo palette isBg w h buf1 ys with
    | error e => rw [hrec] at hok; simp at hok
    | ok v' =>
      obtain ⟨buf2', rows'⟩ := v'
      rw [hrec] at hok
      simp only [Except.ok.injEq, Prod.mk.injEq] at hok
      exact ⟨buf1, row, rows', rfl, by rw [hrec, hok.1], hok.2.symm⟩

/-- Structure of a successful inner dithering loop: one cell per column,
each satisfying any property all successful pixel steps satisfy. -/
theorem ditherRowGo_ok_forall (palette : List String) (isBg : Nat → Nat → Bool)
    (w h : Nat) (P : String → Prop)
    (hP : ∀ buf x y buf' c,
      ditherPixel palette isBg w h buf x y = .ok (buf', c) → P c) :
    ∀ (xs : List Nat) (buf : Buf) (y : Nat) (buf' : Buf) (row : List String),
      ditherRowGo palette isBg w h buf y xs = .ok (buf', row) →
      row.length = xs.length ∧ ∀ c ∈ row, P c := by
  intro xs
  induction xs with
  | nil =>
    intro buf y buf' row heq
    simp only [ditherRowGo, Except.ok.injEq, Prod.mk.injEq] at heq
    rw [← heq.2]
    exact ⟨rfl, by simp⟩
  | cons x xs ih =>
    intro buf y buf' row heq
    obtain ⟨buf1, c, row', hp, hrec, rfl⟩ :=
      ditherRowGo_cons_ok palette isBg w h buf y x xs buf' row heq
    obtain ⟨hlen, hall⟩ := ih buf1 y buf' row' hrec
    refine ⟨by simp [hlen], ?_⟩
    intro c' hc'
    rcases List.mem_cons.mp hc' with rfl | hc'
    · exact hP buf x y buf1 c' hp
    · exact hall c' hc'

/-- Structure of a successful outer dithering loop. -/
theorem ditherGo_ok_forall (palette : List String) (isBg : Nat → Nat → Bool)
    (w h : Nat) (P : String → Prop)
    (hP : ∀ buf x y buf' c,
      ditherPixel palette isBg w h buf x y = .ok (buf', c) → P c) :
    ∀ (ys : List Nat) (buf : Buf) (buf' : Buf) (rows : List (List String)),
      ditherGo palette isBg w h buf ys = .ok (buf', rows) →
      rows.length = ys.length ∧
      ∀ row ∈ rows, row.length = w ∧ ∀ c ∈ row, P c := by
  intro ys
  induction ys with
  | nil =>
    intro buf buf' rows heq
    simp only [ditherGo, Except.ok.injEq, Prod.mk.injEq] at heq
    rw [← heq.2]
    exact ⟨rfl, by simp⟩
  | cons y ys ih =>
    intro buf buf' rows heq
    obtain ⟨buf1, row, rows', hp, hrec, rfl⟩ :=
      ditherGo_cons_ok palette isBg w h buf y ys buf' rows heq
    obtain ⟨hlen, hall⟩ := ih buf1 buf' rows' hrec
    refine ⟨by simp [hlen], ?_⟩
    intro row' hrow'
    rcases List.mem_cons.mp hrow' with rfl | hrow'
    · obtain ⟨hl, hc⟩ := ditherRowGo_ok_forall palette isBg w h P hP
        (List.range w) buf y buf1 row' hp
      exact ⟨by simp [hl], hc⟩
    · exact hall row' hrow'

/-- Every column of a successful inner dithering loop was processed. -/
theorem ditherRowGo_ok_elem (palette : List String) (isBg : Nat → Nat → Bool)
    (w h : Nat) :
    ∀ (xs : List Nat) (buf : Buf) (y : Nat) (buf' : Buf) (row : List String),
      ditherRowGo palette isBg w h buf y xs = .ok (buf', row) →
      ∀ x ∈ xs, ∃ b b' c, ditherPixel palette isBg w h b x y = .ok (b', c) := by
  intro xs
  induction xs with
  | nil => intro buf y buf' row _ x hx; simp at hx
  | cons x xs ih =>
    intro buf y buf' row heq x' hx'
    obtain ⟨buf1, c, row', hp, hrec, rfl⟩ :=
      ditherRowGo_cons_ok palette isBg w h buf y x xs buf' row heq
    rcases List.mem_cons.mp hx' with rfl | hx'
    · exact ⟨buf, buf1, c, hp⟩
    · exact ih buf1 y buf' row' hrec x' hx'

/-- Every row of a successful outer dithering loop was processed. -/
theorem ditherGo_ok_elem (palette : List String) (isBg : Nat → Nat → Bool)
    (w h : Nat) :
    ∀ (ys : List Nat) (buf : Buf) (buf' : Buf) (rows : List (List String)),
      ditherGo palette isBg w h buf ys = .ok (buf', rows) →
      ∀ y ∈ ys, ∃ b b' row,
        ditherRowGo palette isBg w h b y (List.range w) = .ok (b', row) := by
  intro ys
  induction ys with
  | nil => intro buf buf' rows _ y hy; simp at hy
  | cons y ys ih =>
    intro buf buf' rows heq y' hy'
    obtain ⟨buf1, row, rows', hp, hrec, rfl⟩ :=
      ditherGo_cons_ok palette isBg w h buf y ys buf' rows heq
    rcases List.mem_cons.mp hy' with rfl | hy'
    · exact ⟨buf, buf1, row, hp⟩
    · exact ih buf1 buf' rows' hrec y' hy'

/-- Case analysis of one successful non-dithered cell. -/
theorem quantizeCell_ok (palette : List String) (isBg : Nat → Nat → Bool)
    (pix : Nat → Nat → RGB) (x y : Nat) (c : String)
    (h : quantizeCell palette isBg pix x y = .ok c) :
    (isBg x y = true ∧ c = "transparent") ∨
    (isBg x y = false ∧
      findClosestColor (pix x y).1 (pix x y).2.1 (pix x y).2.2 palette = some c) := by
  unfold quantizeCell at h
  by_cases hbg : isBg x y
  · rw [if_pos hbg] at h
    simp only [Except.ok.injEq] at h
    exact Or.inl ⟨hbg, h.symm⟩
  · rw [if_neg hbg] at h
    cases hfc : findClosestColor (pix x y).1 (pix x y).2.1 (pix x y).2.2 palette with
    | none => rw [hfc] at h; simp at h
    | some c0 =>
      rw [hfc] at h
      simp only [Except.ok.injEq] at h
      exact Or.inr ⟨Bool.eq_false_iff.mpr hbg, by rw [h]⟩

/-- A successful non-dithered quantization has the loop dimensions and only
palette colors or the sentinel in its cells. -/
theorem quantizeGrid_dims_cells (palette : List String) (isBg : Nat → Nat → Bool)
    (pix : Nat → Nat → RGB) (w h : Nat) (g : List (List String))
    (hg : quantizeGrid palette isBg pix w h = .ok g) :
    gridDims w h g ∧ cellsAllowed palette g := by
  unfold quantizeGrid at hg
  refine ⟨⟨by simpa using traverseE_ok_length _ _ _ hg, ?_⟩, ?_⟩
  · intro row hrow
    refine traverseE_ok_forall _ (fun row => row.length = w) _ _ hg ?_ row hrow
    intro y _ row' hrow'
    simpa using traverseE_ok_length _ _ _ hrow'
  · intro row hrow c hc
    refine traverseE_ok_forall _
      (fun row => ∀ c ∈ row, c = "transparent" ∨ c ∈ palette) _ _ hg ?_ row hrow c hc
    intro y _ row' hrow' c' hc'
    refine traverseE_ok_forall _
      (fun c => c = "transparent" ∨ c ∈ palette) _ _ hrow' ?_ c' hc'
    intro x _ c'' hc''
    rcases quantizeCell_ok palette isBg pix x y c'' hc'' with ⟨_, rfl⟩ | ⟨_, hfc⟩
    · exact Or.inl rfl
    · exact Or.inr (findClosestColor_mem _ _ _ _ _ hfc)

/-- A successful dithered quantization has the loop dimensions and only
palette colors or the sentinel in its cells. -/
theorem ditherGrid_dims_cells (palette : List String) (isBg : Nat → Nat → Bool)
    (pix : Nat → Nat → RGB) (w h : Nat) (g : List (List String))
    (hg : ditherGrid palette isBg pix w h = .ok g) :
    gridDims w h g ∧ cellsAllowed palette g := by
  unfold ditherGrid at hg
  cases hgo : ditherGo palette isBg w h (fun p => pix p.1 p.2) (List.range h) with
  | error e => rw [hgo] at hg; simp at hg
  | ok v =>
    obtain ⟨buf', rows⟩ := v
    rw [hgo] at hg
    simp only [Except.ok.injEq] at hg
    subst hg
    obtain ⟨hlen, hall⟩ := ditherGo_ok_forall palette isBg w h
      (fun c => c = "transparent" ∨ c ∈ palette)
      (fun buf x y buf' c hok => by
        rcases ditherPixel_ok_cases _ _ _ _ _ _ _ _ _ hok with ⟨_, rfl, _⟩ | ⟨_, hfc⟩
        · exact Or.inl rfl
        · exact Or.inr (findClosestColor_mem _ _ _ _ _ hfc))
      (List.range h) _ buf' rows hgo
    exact ⟨⟨by simpa using hlen, fun row hrow => (hall row hrow).1⟩,
      fun row hrow => (hall row hrow).2⟩

/-- An empty palette makes every non-transparent cell of the non-dithered
loop throw. -/
theorem quantizeCell_empty (isBg : Nat → Nat → Bool) (pix : Nat → Nat → RGB)
    (x y : Nat) (hbg : isBg x y = false) (c : String) :
    quantizeCell [] isBg pix x y ≠ .ok c := by
  unfold quantizeCell
  rw [if_neg (by simp [hbg])]
  simp [findClosestColor, findClosestColorAux]

/-- An empty palette makes every non-transparent dithering step throw. -/
theorem ditherPixel_empty (isBg : Nat → Nat → Bool) (w h : Nat) (buf : Buf)
    (x y : Nat) (hbg : isBg x y = false) (buf' : Buf) (c : String) :
    ditherPixel [] isBg w h buf x y ≠ .ok (buf', c) := by
  unfold ditherPixel
  rw [if_neg (by simp [hbg])]
  simp [findClosestColor, findClosestColorAux]

/-- C10: with background removal enabled and `backgroundThreshold = 0`, the
transparent-pixel set is empty for *every* seed color (the strict inequality
`normalized distance < 0` never holds, even for pixels equal to the seed),
and every cell of a successfully generated grid is non-transparent. -/
theorem thresholdZero_removes_nothing (nativeW nativeH maxBeads : Nat)
    (pix : Nat → Nat → RGB) (palette : List String) (dithering : Bool)
    (seed : RGB) (g : List (List String))
    (hnt : "transparent" ∉ palette)
    (hg : generateGrid nativeW nativeH maxBeads pix palette dithering true 0 =
      .ok g) :
    transparentPixels
      ⟨(resampleDims nativeW nativeH maxBeads).1,
       (resampleDims nativeW nativeH maxBeads).2, pix⟩ seed 0 = ∅ ∧
    ∀ row ∈ g, ∀ c ∈ row, c ≠ "transparent" := by
  have hempty : ∀ s : RGB, transparentPixels
      ⟨(resampleDims nativeW nativeH maxBeads).1,
       (resampleDims nativeW nativeH maxBeads).2, pix⟩ s 0 = ∅ := by
    intro s
    unfold transparentPixels
    exact bgFill_no_within _ s 0 (fun p => withinBg_zero _ s p) _ _ _ _
  refine ⟨hempty seed, ?_⟩
  simp only [generateGrid] at hg
  rw [hempty] at hg
  simp only [Finset.not_mem_empty, decide_False, Bool.and_false] at hg
  have hcells : ∀ row ∈ g, ∀ c ∈ row, c ∈ palette := by
    cases dithering with
    | false =>
      simp only [Bool.false_eq_true, if_false] at hg
      intro row hrow c hc
      refine traverseE_ok_forall _ (fun row => ∀ c ∈ row, c ∈ palette) _ _ hg
        ?_ row hrow c hc
      intro y _ row' hrow' c' hc'
      refine traverseE_ok_forall _ (fun c => c ∈ palette) _ _ hrow' ?_ c' hc'
      intro x _ c'' hc''
      rcases quantizeCell_ok _ _ _ x y c'' hc'' with ⟨hbt, _⟩ | ⟨_, hfc⟩
      · simp at hbt
      · exact findClosestColor_mem _ _ _ _ _ hfc
    | true =>
      simp only [if_true] at hg
      unfold ditherGrid at hg
      cases hgo : ditherGo palette (fun _ _ => false)
          (resampleDims nativeW nativeH maxBeads).1
          (resampleDims nativeW nativeH maxBeads).2
          (fun p => pix p.1 p.2)
          (List.range (resampleDims nativeW nativeH maxBeads).2) with
      | error e => rw [hgo] at hg; simp at hg
      | ok v =>
        obtain ⟨buf', rows⟩ := v
        rw [hgo] at hg
        simp only [Except.ok.injEq] at hg
        subst hg
        obtain ⟨_, hall⟩ := ditherGo_ok_forall palette (fun _ _ => false) _ _
          (fun c => c ∈ palette)
          (fun buf x y buf' c hok => by
            rcases ditherPixel_ok_cases _ _ _ _ _ _ _ _ _ hok with ⟨hbt, _, _⟩ | ⟨_, hfc⟩
            · simp at hbt
            · exact findClosestColor_mem _ _ _ _ _ hfc)
          (List.range (resampleDims nativeW nativeH maxBeads).2) _ buf' rows hgo
        exact fun row hrow => (hall row hrow).2
  intro row hrow c hc
  intro hcontra
  exact hnt (hcontra ▸ hcells row hrow c hc)

/-- Witness for C10: a 1×1 gray pixel, one-color palette, background removal
on with threshold 0 — the grid keeps the pixel. -/
theorem thresholdZero_removes_nothing_witness :
    ("transparent" ∉ (["#000000"] : List String)) ∧
    generateGrid 1 1 10 (fun _ _ => (5, 5, 5)) ["#000000"] false true 0 =
      .ok [["#000000"]] ∧
    (transparentPixels ⟨(resampleDims 1 1 10).1, (resampleDims 1 1 10).2,
        fun _ _ => (5, 5, 5)⟩ (9, 9, 9) 0 = ∅ ∧
      ∀ row ∈ [["#000000"]], ∀ c ∈ row, c ≠ "transparent") :=
  ⟨by decide, by rfl,
    thresholdZero_removes_nothing 1 1 10 (fun _ _ => (5, 5, 5)) ["#000000"] false
      (9, 9, 9) [["#000000"]] (by decide) (by rfl)⟩

/-- C9: with an empty palette and at least one pixel that the background
stage leaves non-transparent, the whole grid generation fails with a single
terminal error and produces no grid (`findClosestColor` yields `undefined`
and the `substring` call on it throws, rejecting the promise). -/
theorem generateGrid_empty_palette_fails (nativeW nativeH maxBeads : Nat)
    (pix : Nat → Nat → RGB) (dithering removeBackground : Bool) (t : Nat)
    (hpx : ∃ x y, x < (resampleDims nativeW nativeH maxBeads).1 ∧
      y < (resampleDims nativeW nativeH maxBeads).2 ∧
      (removeBackground && decide ((x, y) ∈ transparentPixels
        ⟨(resampleDims nativeW nativeH maxBeads).1,
         (resampleDims nativeW nativeH maxBeads).2, pix⟩
        (bgSeed ⟨(resampleDims nativeW nativeH maxBeads).1,
         (resampleDims nativeW nativeH maxBeads).2, pix⟩) t)) = false) :
    generateGrid nativeW nativeH maxBeads pix [] dithering removeBackground t =
      .error () := by
  obtain ⟨x, y, hx, hy, hbg⟩ := hpx
  cases hres : generateGrid nativeW nativeH maxBeads pix [] dithering removeBackground t with
  | error e => rfl
  | ok g =>
    exfalso
    simp only [generateGrid] at hres
    cases dithering with
    | false =>
      simp only [Bool.false_eq_true, if_false] at hres
      obtain ⟨row, hrow⟩ := traverseE_ok_elem _ _ _ hres y (by simpa using hy)
      obtain ⟨c, hc⟩ := traverseE_ok_elem _ _ _ hrow x (by simpa using hx)
      exact quantizeCell_empty _ pix x y hbg c hc
    | true =>
      simp only [if_true] at hres
      unfold ditherGrid at hres
      cases hgo : ditherGo [] (fun x y => removeBackground && decide ((x, y) ∈
          transparentPixels ⟨(resampleDims nativeW nativeH maxBeads).1,
            (resampleDims nativeW nativeH maxBeads).2, pix⟩
            (bgSeed ⟨(resampleDims nativeW nativeH maxBeads).1,
              (resampleDims nativeW nativeH maxBeads).2, pix⟩) t))
          (resampleDims nativeW nativeH maxBeads).1
          (resampleDims nativeW nativeH maxBeads).2
          (fun p => pix p.1 p.2)
          (List.range (resampleDims nativeW nativeH maxBeads).2) with
      | error e => rw [hgo] at hres; simp at hres
      | ok v =>
        obtain ⟨buf', rows⟩ := v
        obtain ⟨b, b', row, hrowok⟩ := ditherGo_ok_elem _ _ _ _ _ _ _ _ hgo y
          (by simpa using hy)
        obtain ⟨bx, bx', c, hcok⟩ := ditherRowGo_ok_elem _ _ _ _ _ _ _ _ _ hrowok x
          (by simpa using hx)
        exact ditherPixel_empty _ _ _ bx x y hbg bx' c hcok

/-- Witness for C9 on a concrete 1×1 image with an empty palette. -/
theorem generateGrid_empty_palette_fails_witness :
    (∃ x y, x < (resampleDims 1 1 10).1 ∧ y < (resampleDims 1 1 10).2 ∧
      (false && decide ((x, y) ∈ transparentPixels
        ⟨(resampleDims 1 1 10).1, (resampleDims 1 1 10).2, fun _ _ => (0, 0, 0)⟩
        (bgSeed ⟨(resampleDims 1 1 10).1, (resampleDims 1 1 10).2,
          fun _ _ => (0, 0, 0)⟩) 30)) = false) ∧
    generateGrid 1 1 10 (fun _ _ => (0, 0, 0)) [] false false 30 = .error () :=
  ⟨⟨0, 0, by decide, by decide, rfl⟩,
    generateGrid_empty_palette_fails 1 1 10 (fun _ _ => (0, 0, 0)) false false 30
      ⟨0, 0, by decide, by decide, rfl⟩⟩

/-- `handlePatternEdit` never writes the canonical grid. -/
theorem handlePatternEdit_beadColors (s : Session) (x y : Int) :
    (handlePatternEdit s x y).beadColors = s.beadColors := by
  unfold handlePatternEdit
  dsimp only
  split_ifs <;> try rfl
  all_goals cases s.editTool <;> rfl

/-- A fold of `handlePatternEdit` calls never writes the canonical grid. -/
theorem applyToolSeq_beadColors (edits : List (Int × Int)) :
    ∀ s : Session, (applyToolSeq s edits).beadColors = s.beadColors := by
  induction edits with
  | nil => intro s; rfl
  | cons e edits ih =>
    intro s
    unfold applyToolSeq at ih ⊢
    rw [List.foldl_cons, ih, handlePatternEdit_beadColors]

/-- C7: entering edit mode, applying any sequence of tool edits (in bounds
or not), then cancelling leaves the canonical grid identical to its
pre-edit state — the edits land only in the edit buffer, which cancel
resets from the canonical grid. -/
theorem edit_cancel_roundtrip (s : Session) (edits : List (Int × Int)) :
    (cancelEdits (applyToolSeq (enterEdit s) edits)).beadColors = s.beadColors ∧
    (cancelEdits (applyToolSeq (enterEdit s) edits)).editedBeadColors =
      s.beadColors ∧
    (cancelEdits (applyToolSeq (enterEdit s) edits)).isEditMode = false := by
  have h := applyToolSeq_beadColors edits (enterEdit s)
  have he : (enterEdit s).beadColors = s.beadColors := rfl
  refine ⟨?_, ?_, rfl⟩
  · show (applyToolSeq (enterEdit s) edits).beadColors = s.beadColors
    rw [h, he]
  · show (applyToolSeq (enterEdit s) edits).beadColors = s.beadColors
    rw [h, he]

/-- C6 counterexample: committing (`applyEdits`) does *not* replace the
canonical grid with the edit buffer.  After editing the single cell of a
1×1 white grid to black and applying, `beadColors` still holds the
pre-edit grid and differs from the edit buffer. -/
theorem applyEdits_does_not_replace_grid :
    ((applyEdits (handlePatternEdit (enterEdit
        ⟨[["#FFFFFF"]], [["#FFFFFF"]], false, false, Tool.add, "#000000",
         fun _ => none, []⟩) 0 0) 10).beadColors = [["#FFFFFF"]]) ∧
    ((applyEdits (handlePatternEdit (enterEdit
        ⟨[["#FFFFFF"]], [["#FFFFFF"]], false, false, Tool.add, "#000000",
         fun _ => none, []⟩) 0 0) 10).editedBeadColors = [["#000000"]]) ∧
    ([["#FFFFFF"]] : List (List String)) ≠ [["#000000"]] := by
  refine ⟨rfl, rfl, by decide⟩

/-- Bumping one color's count affects exactly that color's entry. -/
theorem lookupCount_bump (c d : String) :
    ∀ counts : List (String × Nat),
      lookupCount (bumpCount counts c) d =
        if d = c then lookupCount counts d + 1 else lookupCount counts d := by
  intro counts
  induction counts with
  | nil =>
    by_cases hdc : d = c
    · subst hdc; simp [bumpCount, lookupCount]
    · have hcd : ¬ c = d := fun h => hdc h.symm
      simp [bumpCount, lookupCount, hdc, hcd]
  | cons p rest ih =>
    obtain ⟨e, n⟩ := p
    by_cases hec : e = c
    · subst hec
      simp only [bumpCount, if_pos rfl]
      by_cases hde : d = e
      · subst hde; simp [lookupCount]
      · have hed : ¬ e = d := fun h => hde h.symm
        simp [lookupCount, hed, hde]
    · simp only [bumpCount, if_neg hec]
      by_cases hde : d = e
      · subst hde
        have hdc : ¬ d = c := fun h => hec h
        simp [lookupCount, hdc]
      · have hed : ¬ e = d := fun h => hde h.symm
        simp [lookupCount, hed, ih]

/-- The inner counting fold adds each non-transparent cell of the row. -/
theorem countRow_lookup (c : String) :
    ∀ (row : List String) (counts : List (String × Nat)),
      lookupCount
        (row.foldl
          (fun counts color =>
            if color = "transparent" then counts else bumpCount counts color)
          counts) c =
      lookupCount counts c +
        (if c = "transparent" then 0 else row.count c) := by
  intro row
  induction row with
  | nil => intro counts; simp
  | cons color row ih =>
    intro counts
    rw [List.foldl_cons]
    by_cases hct : color = "transparent"
    · rw [if_pos hct, ih]
      by_cases hc : c = "transparent"
      · simp [hc]
      · have hcolc : (color == c) = false := by
          simp only [beq_eq_false_iff_ne, ne_eq]
          intro h
          exact hc (by rw [← h]; exact hct)
        simp [hc, List.count_cons, hcolc]
    · rw [if_neg hct, ih, lookupCount_bump]
      by_cases hc : c = "transparent"
      · have hccol : ¬ c = color := fun h => hct (by rw [← h]; exact hc)
        rw [if_pos hc, if_pos hc, if_neg hccol]
      · rw [if_neg hc, if_neg hc]
        by_cases hcc : c = color
        · subst hcc
          simp [List.count_cons]
          omega
        · have hcolc : (color == c) = false := by
            simp only [beq_eq_false_iff_ne, ne_eq]
            exact fun h => hcc h.symm
          rw [if_neg hcc]
          simp only [List.count_cons, hcolc]
          simp

/-- The counting double loop computes, from scratch, the number of cells of
each color in the grid (and never counts the transparent sentinel). -/
theorem countColors_lookup (c : String) (g : List (List String)) :
    lookupCount (countColors g) c =
      if c = "transparent" then 0 else gridCount g c := by
  unfold countColors gridCount
  have hgen : ∀ (rows : List (List String)) (counts : List (String × Nat)),
      lookupCount
        (rows.foldl
          (fun counts row =>
            row.foldl
              (fun counts color =>
                if color = "transparent" then counts else bumpCount counts color)
              counts)
          counts) c =
      lookupCount counts c +
        (if c = "transparent" then 0
         else (rows.map fun row => row.count c).sum) := by
    intro rows
    induction rows with
    | nil => intro counts; simp
    | cons row rows ih =>
      intro counts
      rw [List.foldl_cons, ih, countRow_lookup]
      by_cases hc : c = "transparent"
      · simp [hc]
      · simp only [hc, if_false, List.map_cons, List.sum_cons]
        omega
  rw [hgen]
  simp [lookupCount]

/-- C6 (amended): `applyEdits` (Apply) leaves edit mode, re-rasterizes the
edit buffer into the displayed bitmap, and recomputes the color counts from
scratch over the edit buffer — but it does *not* replace the canonical
`beadColors` grid, which keeps its pre-edit contents (the committed edits
live on only in `editedBeadColors`). -/
theorem applyEdits_spec (s : Session) (beadSize : Nat)
    (hne : s.editedBeadColors.length ≠ 0) :
    (applyEdits s beadSize).isEditMode = false ∧
    (applyEdits s beadSize).beadColors = s.beadColors ∧
    (applyEdits s beadSize).editedBeadColors = s.editedBeadColors ∧
    (applyEdits s beadSize).beadPattern = rasterize s.editedBeadColors beadSize ∧
    (∀ c : String, lookupCount (applyEdits s beadSize).colorCounts c =
      if c = "transparent" then 0 else gridCount s.editedBeadColors c) := by
  unfold applyEdits generateEditedPattern
  rw [if_neg (by simpa using hne)]
  refine ⟨rfl, rfl, rfl, rfl, ?_⟩
  intro c
  exact countColors_lookup c s.editedBeadColors

/-- Witness for C6 (amended) on a concrete one-cell session. -/
theorem applyEdits_spec_witness :
    ((1 : Nat) ≠ 0) ∧
    ((applyEdits
        ⟨[["#FFFFFF"]], [["#000000"]], true, true, Tool.add, "#000000",
         fun _ => none, []⟩ 10).isEditMode = false ∧
      (applyEdits
        ⟨[["#FFFFFF"]], [["#000000"]], true, true, Tool.add, "#000000",
         fun _ => none, []⟩ 10).beadColors = [["#FFFFFF"]] ∧
      (applyEdits
        ⟨[["#FFFFFF"]], [["#000000"]], true, true, Tool.add, "#000000",
         fun _ => none, []⟩ 10).editedBeadColors = [["#000000"]] ∧
      (applyEdits
        ⟨[["#FFFFFF"]], [["#000000"]], true, true, Tool.add, "#000000",
         fun _ => none, []⟩ 10).beadPattern = rasterize [["#000000"]] 10 ∧
      (∀ c : String, lookupCount (applyEdits
          ⟨[["#FFFFFF"]], [["#000000"]], true, true, Tool.add, "#000000",
           fun _ => none, []⟩ 10).colorCounts c =
        if c = "transparent" then 0 else gridCount [["#000000"]] c)) :=
  ⟨by decide,
    applyEdits_spec
      ⟨[["#FFFFFF"]], [["#000000"]], true, true, Tool.add, "#000000",
       fun _ => none, []⟩ 10 (by decide)⟩

/-- C8 counterexample: the pointer/touch dispatch path is not error-free on
out-of-bounds targets.  On a 1×1 grid in edit mode with the add tool, a
click mapping to row 5 makes `handleCanvasDraw` read
`editedBeadColors[5][0]` — `undefined[0]` — which throws a `TypeError`
(modelled as `Except.error`), even though no state is mutated. -/
theorem handleCanvasDraw_oob_throws :
    handleCanvasDraw
      ⟨[["#FFFFFF"]], [["#FFFFFF"]], true, false, Tool.add, "#000000",
       fun _ => none, []⟩ 0 5 = .error () := by
  rfl

/-- C8 (amended): an edit-tool invocation targeting a coordinate outside
the grid extent never mutates any state: `handlePatternEdit` returns the
state unchanged (no error), and the canvas dispatch path also preserves the
state — but the dispatch path throws a `TypeError` (rather than silently
returning) exactly when the row index is out of range and the active tool
is not erase. -/
theorem edit_out_of_bounds_ignored (s : Session) (x y : Int)
    (hoob : x < 0 ∨ ((s.editedBeadColors.headD []).length : Int) ≤ x ∨ y < 0 ∨
      (s.editedBeadColors.length : Int) ≤ y) :
    handlePatternEdit s x y = s ∧
    (handleCanvasDraw s x y = .ok s ∨ handleCanvasDraw s x y = .error ()) := by
  have hpe : handlePatternEdit s x y = s := by
    unfold handlePatternEdit
    dsimp only
    by_cases hA : s.editedBeadColors.length = 0 ∨ s.isEditMode = false
    · rw [if_pos hA]
    · rw [if_neg hA, if_pos hoob]
  refine ⟨hpe, ?_⟩
  unfold handleCanvasDraw
  dsimp only
  by_cases h1 : s.editedBeadColors.length = 0
  · rw [if_pos h1]
    exact Or.inl rfl
  · rw [if_neg h1]
    by_cases h2 : s.editTool ≠ Tool.erase
    · rw [if_pos h2]
      by_cases h3 : y < 0 ∨ (s.editedBeadColors.length : Int) ≤ y
      · rw [if_pos h3]
        exact Or.inr rfl
      · rw [if_neg h3]
        exact Or.inl (by rw [hpe])
    · rw [if_neg h2]
      exact Or.inl (by rw [hpe])

/-- Witness for C8 (amended) on a concrete out-of-bounds target. -/
theorem edit_out_of_bounds_ignored_witness :
    ((0 : Int) < 0 ∨ (((([["#FFFFFF"]] : List (List String)).headD []).length : Int) ≤ 0) ∨
      (5 : Int) < 0 ∨ ((([["#FFFFFF"]] : List (List String)).length : Int) ≤ 5)) ∧
    (handlePatternEdit
        ⟨[["#FFFFFF"]], [["#FFFFFF"]], true, false, Tool.add, "#000000",
         fun _ => none, []⟩ 0 5 =
      ⟨[["#FFFFFF"]], [["#FFFFFF"]], true, false, Tool.add, "#000000",
       fun _ => none, []⟩ ∧
      (handleCanvasDraw
          ⟨[["#FFFFFF"]], [["#FFFFFF"]], true, false, Tool.add, "#000000",
           fun _ => none, []⟩ 0 5 =
        .ok ⟨[["#FFFFFF"]], [["#FFFFFF"]], true, false, Tool.add, "#000000",
          fun _ => none, []⟩ ∨
        handleCanvasDraw
          ⟨[["#FFFFFF"]], [["#FFFFFF"]], true, false, Tool.add, "#000000",
           fun _ => none, []⟩ 0 5 = .error ())) :=
  ⟨by decide,
    edit_out_of_bounds_ignored
      ⟨[["#FFFFFF"]], [["#FFFFFF"]], true, false, Tool.add, "#000000",
       fun _ => none, []⟩ 0 5 (by decide)⟩

/-- An in-range `getD` is a member. -/
theorem getD_mem_of_lt {α : Type} (l : List α) (d : α) (n : Nat)
    (hn : n < l.length) : l.getD n d ∈ l := by
  rw [List.getD_eq_getElem l d hn]
  exact List.getElem_mem hn

/-- The default head of a non-empty list is a member. -/
theorem headD_mem {α : Type} (l : List α) (d : α) (h : l ≠ []) :
    l.headD d ∈ l := by
  cases l with
  | nil => exact absurd rfl h
  | cons a l => simp

/-- C5: the color-grid invariant.  Generation establishes it — a successful
`generateGrid` run yields a grid whose dimensions equal the resampled
dimensions and whose every cell is the `transparent` sentinel or a palette
member.  Every edit operation (add, erase, pick) preserves it: with the
selected color in the allowed set `A`, `handlePatternEdit` keeps every cell
in `A` or transparent, keeps the selected color in `A` (edits can only
introduce colors from the current selection), and keeps the grid
dimensions. -/
theorem grid_invariant (nativeW nativeH maxBeads : Nat) (pix : Nat → Nat → RGB)
    (palette : List String) (dithering removeBackground : Bool) (t : Nat)
    (g : List (List String)) (A : List String) (s : Session) (x y : Int)
    (w h : Nat) :
    (generateGrid nativeW nativeH maxBeads pix palette dithering removeBackground t =
        .ok g →
      gridDims (resampleDims nativeW nativeH maxBeads).1
        (resampleDims nativeW nativeH maxBeads).2 g ∧
      cellsAllowed palette g) ∧
    (cellsAllowed A s.editedBeadColors → s.selectedColor ∈ A →
      gridDims w h s.editedBeadColors →
      cellsAllowed A (handlePatternEdit s x y).editedBeadColors ∧
      gridDims w h (handlePatternEdit s x y).editedBeadColors ∧
      (handlePatternEdit s x y).selectedColor ∈ A) := by
  constructor
  · intro hg
    simp only [generateGrid] at hg
    cases dithering with
    | false =>
      simp only [Bool.false_eq_true, if_false] at hg
      exact quantizeGrid_dims_cells _ _ _ _ _ _ hg
    | true =>
      simp only [if_true] at hg
      exact ditherGrid_dims_cells _ _ _ _ _ _ hg
  · intro hA hsel hdims
    unfold handlePatternEdit
    dsimp only
    by_cases hG : s.editedBeadColors.length = 0 ∨ s.isEditMode = false
    · rw [if_pos hG]
      exact ⟨hA, hdims, hsel⟩
    · rw [if_neg hG]
      by_cases hB : x < 0 ∨ ((s.editedBeadColors.headD []).length : Int) ≤ x ∨
          y < 0 ∨ (s.editedBeadColors.length : Int) ≤ y
      · rw [if_pos hB]
        exact ⟨hA, hdims, hsel⟩
      · rw [if_neg hB]
        push_neg at hB
        obtain ⟨hx0, hxw, hy0, hyh⟩ := hB
        have hyn : y.toNat < s.editedBeadColors.length := by omega
        have hrowmem : s.editedBeadColors.getD y.toNat [] ∈ s.editedBeadColors :=
          getD_mem_of_lt _ _ _ hyn
        have hxn : x.toNat < (s.editedBeadColors.headD []).length := by omega
        have hset : ∀ c : String, c = "transparent" ∨ c ∈ A →
            cellsAllowed A (s.editedBeadColors.set y.toNat
              ((s.editedBeadColors.getD y.toNat []).set x.toNat c)) ∧
            gridDims w h (s.editedBeadColors.set y.toNat
              ((s.editedBeadColors.getD y.toNat []).set x.toNat c)) := by
          intro c hc
          constructor
          · intro row hrow c' hc'
            rcases List.mem_or_eq_of_mem_set hrow with hrow | rfl
            · exact hA row hrow c' hc'
            · rcases List.mem_or_eq_of_mem_set hc' with hc' | rfl
              · exact hA _ hrowmem c' hc'
              · exact hc
          · refine ⟨by simpa using hdims.1, ?_⟩
            intro row hrow
            rcases List.mem_or_eq_of_mem_set hrow with hrow | rfl
            · exact hdims.2 row hrow
            · simpa using hdims.2 _ hrowmem
        cases s.editTool with
        | add => exact ⟨(hset s.selectedColor (Or.inr hsel)).1,
            (hset s.selectedColor (Or.inr hsel)).2, hsel⟩
        | erase => exact ⟨(hset "transparent" (Or.inl rfl)).1,
            (hset "transparent" (Or.inl rfl)).2, hsel⟩
        | pick =>
          by_cases hp : (s.editedBeadColors.getD y.toNat []).getD x.toNat
              "transparent" ≠ "transparent"
          · rw [if_pos hp]
            refine ⟨hA, hdims, ?_⟩
            have hnonnil : s.editedBeadColors ≠ [] := by
              intro hnil
              rw [hnil] at hyn
              simp at hyn
            have hhead : s.editedBeadColors.headD [] ∈ s.editedBeadColors :=
              headD_mem _ _ hnonnil
            have hrowlen : (s.editedBeadColors.getD y.toNat []).length = w :=
              hdims.2 _ hrowmem
            have hheadlen : (s.editedBeadColors.headD []).length = w :=
              hdims.2 _ hhead
            have hxr : x.toNat < (s.editedBeadColors.getD y.toNat []).length := by
              omega
            have hcellmem : (s.editedBeadColors.getD y.toNat []).getD x.toNat
                "transparent" ∈ s.editedBeadColors.getD y.toNat [] :=
              getD_mem_of_lt _ _ _ hxr
            rcases hA _ hrowmem _ hcellmem with hcontra | hmem
            · exact absurd hcontra hp
            · exact hmem
          · rw [if_neg hp]
            exact ⟨hA, hdims, hsel⟩

/-- Witness for C5: a concrete generation run and a concrete in-bounds add
edit, with every hypothesis discharged. -/
theorem grid_invariant_witness :
    (gridDims (resampleDims 1 1 10).1 (resampleDims 1 1 10).2 [["#000000"]] ∧
      cellsAllowed ["#000000"] [["#000000"]]) ∧
    (cellsAllowed ["#000000", "#FFFFFF"]
        (handlePatternEdit ⟨[["#FFFFFF"]], [["#FFFFFF"]], true, false, Tool.add,
          "#000000", fun _ => none, []⟩ 0 0).editedBeadColors ∧
      gridDims 1 1 (handlePatternEdit ⟨[["#FFFFFF"]], [["#FFFFFF"]], true, false,
          Tool.add, "#000000", fun _ => none, []⟩ 0 0).editedBeadColors ∧
      (handlePatternEdit ⟨[["#FFFFFF"]], [["#FFFFFF"]], true, false, Tool.add,
          "#000000", fun _ => none, []⟩ 0 0).selectedColor ∈
        ["#000000", "#FFFFFF"]) :=
  ⟨(grid_invariant 1 1 10 (fun _ _ => (5, 5, 5)) ["#000000"] false true 0
      [["#000000"]] ["#000000", "#FFFFFF"]
      ⟨[["#FFFFFF"]], [["#FFFFFF"]], true, false, Tool.add, "#000000",
       fun _ => none, []⟩ 0 0 1 1).1 (by rfl),
   (grid_invariant 1 1 10 (fun _ _ => (5, 5, 5)) ["#000000"] false true 0
      [["#000000"]] ["#000000", "#FFFFFF"]
      ⟨[["#FFFFFF"]], [["#FFFFFF"]], true, false, Tool.add, "#000000",
       fun _ => none, []⟩ 0 0 1 1).2
    (by
      intro row hrow c hc
      simp only [List.mem_singleton] at hrow
      subst hrow
      simp only [List.mem_singleton] at hc
      subst hc
      exact Or.inr (by simp))
    (by simp)
    ⟨rfl, by
      intro row hrow
      simp only [List.mem_singleton] at hrow
      subst hrow
      rfl⟩⟩

/-- A store updates its target cell. -/
theorem storeAdd_self (buf : Buf) (p : Nat × Nat) (dr dg db : ℤ) :
    storeAdd buf p dr dg db p =
      (toUint8Clamp16 (16 * (buf p).1 + dr), toUint8Clamp16 (16 * (buf p).2.1 + dg),
       toUint8Clamp16 (16 * (buf p).2.2 + db)) := by
  simp [storeAdd, updatePix]

/-- A store leaves every other cell unchanged. -/
theorem storeAdd_other (buf : Buf) (p q : Nat × Nat) (dr dg db : ℤ)
    (h : q ≠ p) : storeAdd buf p dr dg db q = buf q := by
  simp [storeAdd, updatePix, h]

/-- C4 (amended): the per-pixel behaviour of the dithering loop.  A
transparent pixel gets the sentinel and propagates zero error (the working
buffer is untouched).  A non-transparent pixel gets its nearest palette
color computed from the current working values, and the per-channel
quantization error is propagated exactly to the in-bounds kernel targets —
right 7/16, below-left 3/16, below 5/16, below-right 1/16, out-of-bounds
targets skipped — every other cell staying unchanged; each store goes
through `Uint8ClampedArray` semantics (round to nearest, ties to even,
clamp to `[0, 255]`), the working copy being 8-bit integers, not floats. -/
theorem ditherPixel_kernel (palette : List String) (isBg : Nat → Nat → Bool)
    (w h : Nat) (buf : Buf) (x y : Nat) :
    (isBg x y = true →
      ditherPixel palette isBg w h buf x y = .ok (buf, "transparent")) ∧
    (∀ c : String, isBg x y = false →
      findClosestColor (buf (x, y)).1 (buf (x, y)).2.1 (buf (x, y)).2.2 palette =
        some c →
      ∃ bufE, ditherPixel palette isBg w h buf x y = .ok (bufE, c) ∧
        (∀ p, p ∉ (kernelTaps w h x y).map Prod.fst → bufE p = buf p) ∧
        (∀ p k, (p, k) ∈ kernelTaps w h x y →
          bufE p = tapValue buf (((buf (x, y)).1 : ℤ) - hexR c)
            (((buf (x, y)).2.1 : ℤ) - hexG c)
            (((buf (x, y)).2.2 : ℤ) - hexB c) p k)) := by
  constructor
  · intro hbg
    unfold ditherPixel
    rw [if_pos hbg]
  · intro c hbg hfc
    unfold ditherPixel
    rw [if_neg (by simp [hbg]), hfc]
    dsimp only
    by_cases hgy : y + 1 < h
    · by_cases hg1 : x + 1 < w
      · by_cases hg0 : 0 < x
        · have n12 : ((x + 1 : Nat), y) ≠ (x - 1, y + 1) := by
            intro hh; rw [Prod.mk.injEq] at hh; omega
          have n13 : ((x + 1 : Nat), y) ≠ (x, y + 1) := by
            intro hh; rw [Prod.mk.injEq] at hh; omega
          have n14 : ((x + 1 : Nat), y) ≠ (x + 1, y + 1) := by
            intro hh; rw [Prod.mk.injEq] at hh; omega
          have n21 : ((x - 1 : Nat), y + 1) ≠ (x + 1, y) := by
            intro hh; rw [Prod.mk.injEq] at hh; omega
          have n23 : ((x - 1 : Nat), y + 1) ≠ (x, y + 1) := by
            intro hh; rw [Prod.mk.injEq] at hh; omega
          have n24 : ((x - 1 : Nat), y + 1) ≠ (x + 1, y + 1) := by
            intro hh; rw [Prod.mk.injEq] at hh; omega
          have n31 : ((x : Nat), y + 1) ≠ (x + 1, y) := by
            intro hh; rw [Prod.mk.injEq] at hh; omega
          have n32 : ((x : Nat), y + 1) ≠ (x - 1, y + 1) := by
            intro hh; rw [Prod.mk.injEq] at hh; omega
          have n34 : ((x : Nat), y + 1) ≠ (x + 1, y + 1) := by
            intro hh; rw [Prod.mk.injEq] at hh; omega
          have n41 : ((x + 1 : Nat), y + 1) ≠ (x + 1, y) := by
            intro hh; rw [Prod.mk.injEq] at hh; omega
          have n42 : ((x + 1 : Nat), y + 1) ≠ (x - 1, y + 1) := by
            intro hh; rw [Prod.mk.injEq] at hh; omega
          have n43 : ((x + 1 : Nat), y + 1) ≠ (x, y + 1) := by
            intro hh; rw [Prod.mk.injEq] at hh; omega
          simp only [if_pos hgy, if_pos hg1, if_pos hg0, kernelTaps,
            List.cons_append, List.nil_append]
          refine ⟨_, rfl, ?_, ?_⟩
          · intro p hp
            simp only [List.map_cons, List.map_nil, List.mem_cons,
              List.not_mem_nil, or_false, not_or] at hp
            obtain ⟨hp1, hp2, hp3, hp4⟩ := hp
            rw [storeAdd_other _ _ _ _ _ _ hp4, storeAdd_other _ _ _ _ _ _ hp3,
              storeAdd_other _ _ _ _ _ _ hp2, storeAdd_other _ _ _ _ _ _ hp1]
          · intro p k hpk
            simp only [List.mem_cons, List.not_mem_nil, or_false,
              Prod.mk.injEq] at hpk
            rcases hpk with ⟨rfl, rfl⟩ | ⟨rfl, rfl⟩ | ⟨rfl, rfl⟩ | ⟨rfl, rfl⟩
            · rw [storeAdd_other _ _ _ _ _ _ n14, storeAdd_other _ _ _ _ _ _ n13,
                storeAdd_other _ _ _ _ _ _ n12, storeAdd_self]
              rfl
            · rw [storeAdd_other _ _ _ _ _ _ n24, storeAdd_other _ _ _ _ _ _ n23,
                storeAdd_self, storeAdd_other _ _ _ _ _ _ n21]
              rfl
            · rw [storeAdd_other _ _ _ _ _ _ n34, storeAdd_self,
                storeAdd_other _ _ _ _ _ _ n32, storeAdd_other _ _ _ _ _ _ n31]
              rfl
            · rw [storeAdd_self, storeAdd_other _ _ _ _ _ _ n43,
                storeAdd_other _ _ _ _ _ _ n42, storeAdd_other _ _ _ _ _ _ n41]
              rfl
        · have n13 : ((x + 1 : Nat), y) ≠ (x, y + 1) := by
            intro hh; rw [Prod.mk.injEq] at hh; omega
          have n14 : ((x + 1 : Nat), y) ≠ (x + 1, y + 1) := by
            intro hh; rw [Prod.mk.injEq] at hh; omega
          have n31 : ((x : Nat), y + 1) ≠ (x + 1, y) := by
            intro hh; rw [Prod.mk.injEq] at hh; omega
          have n34 : ((x : Nat), y + 1) ≠ (x + 1, y + 1) := by
            intro hh; rw [Prod.mk.injEq] at hh; omega
          have n41 : ((x + 1 : Nat), y + 1) ≠ (x + 1, y) := by
            intro hh; rw [Prod.mk.injEq] at hh; omega
          have n43 : ((x + 1 : Nat), y + 1) ≠ (x, y + 1) := by
            intro hh; rw [Prod.mk.injEq] at hh; omega
          simp only [if_pos hgy, if_pos hg1, if_neg hg0, kernelTaps,
            List.cons_append, List.nil_append]
          refine ⟨_, rfl, ?_, ?_⟩
          · intro p hp
            simp only [List.map_cons, List.map_nil, List.mem_cons,
              List.not_mem_nil, or_false, not_or] at hp
            obtain ⟨hp1, hp3, hp4⟩ := hp
            rw [storeAdd_other _ _ _ _ _ _ hp4, storeAdd_other _ _ _ _ _ _ hp3,
              storeAdd_other _ _ _ _ _ _ hp1]
          · intro p k hpk
            simp only [List.mem_cons, List.not_mem_nil, or_false,
              Prod.mk.injEq] at hpk
            rcases hpk with ⟨rfl, rfl⟩ | ⟨rfl, rfl⟩ | ⟨rfl, rfl⟩
            · rw [storeAdd_other _ _ _ _ _ _ n14, storeAdd_other _ _ _ _ _ _ n13,
                storeAdd_self]
              rfl
            · rw [storeAdd_other _ _ _ _ _ _ n34, storeAdd_self,
                storeAdd_other _ _ _ _ _ _ n31]
              rfl
            · rw [storeAdd_self, storeAdd_other _ _ _ _ _ _ n43,
                storeAdd_other _ _ _ _ _ _ n41]
              rfl
      · by_cases hg0 : 0 < x
        · have n23 : ((x - 1 : Nat), y + 1) ≠ (x, y + 1) := by
            intro hh; rw [Prod.mk.injEq] at hh; omega
          have n32 : ((x : Nat), y + 1) ≠ (x - 1, y + 1) := by
            intro hh; rw [Prod.mk.injEq] at hh; omega
          simp only [if_pos hgy, if_neg hg1, if_pos hg0, kernelTaps,
            List.cons_append, List.nil_append]
          refine ⟨_, rfl, ?_, ?_⟩
          · intro p hp
            simp only [List.map_cons, List.map_nil, List.mem_cons,
              List.not_mem_nil, or_false, not_or] at hp
            obtain ⟨hp2, hp3⟩ := hp
            rw [storeAdd_other _ _ _ _ _ _ hp3, storeAdd_other _ _ _ _ _ _ hp2]
          · intro p k hpk
            simp only [List.mem_cons, List.not_mem_nil, or_false,
              Prod.mk.injEq] at hpk
            rcases hpk with ⟨rfl, rfl⟩ | ⟨rfl, rfl⟩
            · rw [storeAdd_other _ _ _ _ _ _ n23, storeAdd_self]
              rfl
            · rw [storeAdd_self, storeAdd_other _ _ _ _ _ _ n32]
              rfl
        · simp only [if_pos hgy, if_neg hg1, if_neg hg0, kernelTaps,
            List.cons_append, List.nil_append]
          refine ⟨_, rfl, ?_, ?_⟩
          · intro p hp
            simp only [List.map_cons, List.map_nil, List.mem_cons,
              List.not_mem_nil, or_false, not_or] at hp
            rw [storeAdd_other _ _ _ _ _ _ hp]
          · intro p k hpk
            simp only [List.mem_cons, List.not_mem_nil, or_false,
              Prod.mk.injEq] at hpk
            obtain ⟨rfl, rfl⟩ := hpk
            rw [storeAdd_self]
            rfl
    · by_cases hg1 : x + 1 < w
      · simp only [if_neg hgy, if_pos hg1, kernelTaps, List.cons_append,
          List.nil_append, List.append_nil]
        refine ⟨_, rfl, ?_, ?_⟩
        · intro p hp
          simp only [List.map_cons, List.map_nil, List.mem_cons,
            List.not_mem_nil, or_false, not_or] at hp
          rw [storeAdd_other _ _ _ _ _ _ hp]
        · intro p k hpk
          simp only [List.mem_cons, List.not_mem_nil, or_false,
            Prod.mk.injEq] at hpk
          obtain ⟨rfl, rfl⟩ := hpk
          rw [storeAdd_self]
          rfl
      · simp only [if_neg hgy, if_neg hg1, kernelTaps, List.append_nil]
        refine ⟨_, rfl, ?_, ?_⟩
        · intro p _
          rfl
        · intro p k hpk
          simp at hpk

/-- C4 counterexample: the working copy is *not* floating point.  On a 2×1
buffer with pixels `(60,0,0)`, `(68,0,0)` and palette
`["#000000", "#640000"]`, the first pixel quantizes to `(100,0,0)` with
error `-40`; the right tap adds `-17.5`, giving `50.5`.  The source's
`Uint8ClampedArray` store rounds ties to even, so the second pixel reads
`50`, ties against both palette entries, and the earlier black wins; under
the claimed float semantics it reads `50.5` and picks `"#640000"`.  The two
grids differ. -/
theorem dither_buffer_is_not_float :
    ditherGrid ["#000000", "#640000"] (fun _ _ => false)
      (fun x _ => if x = 0 then (60, 0, 0) else (68, 0, 0)) 2 1 =
      .ok [["#640000", "#000000"]] ∧
    ditherGridFloatClaim ["#000000", "#640000"] (fun _ _ => false)
      (fun x _ => if x = 0 then (60, 0, 0) else (68, 0, 0)) 2 1 =
      .ok [["#640000", "#640000"]] ∧
    ditherGrid ["#000000", "#640000"] (fun _ _ => false)
      (fun x _ => if x = 0 then (60, 0, 0) else (68, 0, 0)) 2 1 ≠
      ditherGridFloatClaim ["#000000", "#640000"] (fun _ _ => false)
        (fun x _ => if x = 0 then (60, 0, 0) else (68, 0, 0)) 2 1 := by
  have h1 : ditherGrid ["#000000", "#640000"] (fun _ _ => false)
      (fun x _ => if x = 0 then (60, 0, 0) else (68, 0, 0)) 2 1 =
      .ok [["#640000", "#000000"]] := by rfl
  have h2 : ditherGridFloatClaim ["#000000", "#640000"] (fun _ _ => false)
      (fun x _ => if x = 0 then (60, 0, 0) else (68, 0, 0)) 2 1 =
      .ok [["#640000", "#640000"]] := by
    norm_num [ditherGridFloatClaim, ditherGoFloatClaim, ditherRowGoFloatClaim,
      ditherPixelFloatClaim, findClosestColorQ, findClosestColorQAux, dist2Q,
      clamp255, addQ, updatePixQ, List.range_succ, List.range_zero,
      show hexR "#640000" = 100 from by decide,
      show hexG "#640000" = 0 from by decide,
      show hexB "#640000" = 0 from by decide,
      show hexR "#000000" = 0 from by decide,
      show hexG "#000000" = 0 from by decide,
      show hexB "#000000" = 0 from by decide]
  refine ⟨h1, h2, ?_⟩
  rw [h1, h2]
  intro hcontra
  injection hcontra with hcontra
  revert hcontra
  decide

/-- Witness for C4 (amended) at a concrete buffer: a transparent step and a
non-transparent step of the kernel characterisation. -/
theorem ditherPixel_kernel_witness :
    (ditherPixel ["#000000"] (fun _ _ => true) 2 1
        (fun p => if p.1 = 0 then ((60 : Nat), (0 : Nat), (0 : Nat)) else (68, 0, 0)) 0 0 =
      .ok ((fun p => if p.1 = 0 then ((60 : Nat), (0 : Nat), (0 : Nat)) else (68, 0, 0)),
        "transparent")) ∧
    (∃ bufE, ditherPixel ["#000000"] (fun _ _ => false) 2 1
        (fun p => if p.1 = 0 then ((60 : Nat), (0 : Nat), (0 : Nat)) else (68, 0, 0)) 0 0 =
        .ok (bufE, "#000000") ∧
      (∀ p, p ∉ (kernelTaps 2 1 0 0).map Prod.fst →
        bufE p = (fun p : Nat × Nat =>
          if p.1 = 0 then ((60 : Nat), (0 : Nat), (0 : Nat)) else (68, 0, 0)) p) ∧
      (∀ p k, (p, k) ∈ kernelTaps 2 1 0 0 →
        bufE p = tapValue
          (fun p => if p.1 = 0 then ((60 : Nat), (0 : Nat), (0 : Nat)) else (68, 0, 0))
          ((((fun p : Nat × Nat =>
              if p.1 = 0 then ((60 : Nat), (0 : Nat), (0 : Nat)) else (68, 0, 0)) (0, 0)).1 : ℤ) -
            hexR "#000000")
          ((((fun p : Nat × Nat =>
              if p.1 = 0 then ((60 : Nat), (0 : Nat), (0 : Nat)) else (68, 0, 0)) (0, 0)).2.1 : ℤ) -
            hexG "#000000")
          ((((fun p : Nat × Nat =>
              if p.1 = 0 then ((60 : Nat), (0 : Nat), (0 : Nat)) else (68, 0, 0)) (0, 0)).2.2 : ℤ) -
            hexB "#000000") p k)) :=
  ⟨(ditherPixel_kernel ["#000000"] (fun _ _ => true) 2 1
      (fun p => if p.1 = 0 then ((60 : Nat), (0 : Nat), (0 : Nat)) else (68, 0, 0)) 0 0).1 rfl,
   (ditherPixel_kernel ["#000000"] (fun _ _ => false) 2 1
      (fun p => if p.1 = 0 then ((60 : Nat), (0 : Nat), (0 : Nat)) else (68, 0, 0)) 0 0).2
     "#000000" rfl (by rfl)⟩
